import Mathlib

/-!
Verification development for the Zerodha→5paisa copy trader.

The Python sources (`copy_trader.py`, `FivePaisa.py`) are shallowly embedded
below.  Strings are handled through their character lists; Python `dict`s
become association lists; machine integers are `Int`/`Nat`; fallible Python
code (exceptions caught by the surrounding `try`/`except` blocks) is embedded
as `Option`-returning functions; broker network clients are environments of
response-valued functions.  Floating point prices are modelled as exact
rationals.
-/

/-- The ten ASCII digit characters (Python `int` accepts exactly digit
strings, modulo sign/whitespace which never arise here). -/
def digitChars : List Char := ['0', '1', '2', '3', '4', '5', '6', '7', '8', '9']

/-- Positional decimal value of a digit string. -/
def digitsVal (s : List Char) : Nat :=
  s.foldl (fun a c => 10 * a + (c.toNat - 48)) 0

/-- `digitsQ s = some n` iff `s` is a nonempty string of decimal digits.
Models the digits-only core of Python `int()`. -/
def digitsQ (s : List Char) : Option Nat :=
  if s.isEmpty then none
  else if s.all (fun c => decide (c ∈ digitChars)) then some (digitsVal s)
  else none

/-- Model of Python `int(str)` on the strings this program feeds it:
an optional sign followed by a nonempty digit run; anything else raises
`ValueError`, embedded as `none`. -/
def pyInt (s : List Char) : Option Int :=
  match s with
  | [] => (digitsQ []).map Int.ofNat
  | c :: r =>
      if c = '+' then (digitsQ r).map Int.ofNat
      else if c = '-' then (digitsQ r).map (fun n => -(n : Int))
      else (digitsQ (c :: r)).map Int.ofNat

/-- `month_name_map` of `parse_zerodha_option_symbol` (monthly grammar):
uppercased 3-character month abbreviations, keyed as character triples. -/
def monthLookup (l : List Char) : Option String :=
  if l = ['J', 'A', 'N'] then some "Jan"
  else if l = ['F', 'E', 'B'] then some "Feb"
  else if l = ['M', 'A', 'R'] then some "Mar"
  else if l = ['A', 'P', 'R'] then some "Apr"
  else if l = ['M', 'A', 'Y'] then some "May"
  else if l = ['J', 'U', 'N'] then some "Jun"
  else if l = ['J', 'U', 'L'] then some "Jul"
  else if l = ['A', 'U', 'G'] then some "Aug"
  else if l = ['S', 'E', 'P'] then some "Sep"
  else if l = ['O', 'C', 'T'] then some "Oct"
  else if l = ['N', 'O', 'V'] then some "Nov"
  else if l = ['D', 'E', 'C'] then some "Dec"
  else none

/-- `mon_map` of `parse_zerodha_option_symbol` (weekly grammar): the fixed
12-entry single-letter month-code table; a key miss is Python's `KeyError`,
embedded as `none`. -/
def monMapW (c : Char) : Option String :=
  if c = 'J' then some "Jan"
  else if c = 'F' then some "Feb"
  else if c = 'M' then some "Mar"
  else if c = 'A' then some "Apr"
  else if c = 'Y' then some "May"
  else if c = 'H' then some "Jun"
  else if c = 'G' then some "Jul"
  else if c = 'U' then some "Aug"
  else if c = 'S' then some "Sep"
  else if c = 'O' then some "Oct"
  else if c = 'N' then some "Nov"
  else if c = 'D' then some "Dec"
  else none

/-- The 12 weekly month-code letters (the keys of `monMapW`). -/
def weeklyCodes : List Char := ['J', 'F', 'M', 'A', 'Y', 'H', 'G', 'U', 'S', 'O', 'N', 'D']

/-- `idx_symbols` of `parse_zerodha_option_symbol`. -/
def idxSymbols : List String := ["NIFTY", "BANKNIFTY", "FINNIFTY", "MIDCPNIFTY"]

/-- The dict returned by `parse_zerodha_option_symbol` (copy_trader.py
version, with the `is_monthly_expiry` flag).  `dd`, `mon`, `yyyy` are kept
as the raw string pieces; `expiry_api_format` is their concatenation. -/
structure ParsedSymbol where
  symbol : String
  dd : String
  mon : String
  yyyy : String
  option_type : String
  strike : Int
  series : String
  is_monthly_expiry : Bool
deriving DecidableEq, Repr

/-- `parsed["expiry_api_format"]`, i.e. `f"{dd}{mon}{yyyy}"`. -/
def expiryApiFormat (p : ParsedSymbol) : String :=
  p.dd ++ p.mon ++ p.yyyy

/-- `tail.endswith("PE")`. -/
def endsPE (l : List Char) : Bool :=
  match l.reverse with
  | e :: p :: _ => e == 'E' && p == 'P'
  | _ => false

/-- Shared tail of `parse_zerodha_option_symbol` after the grammar split:
`opt_type = "PE" if tail.endswith("PE") else "CE"`, `strike = int(tail[:-2])`,
series from `idx_symbols` membership. -/
def finishParse (u dd : List Char) (mon : String) (yyyy : List Char)
    (tail : List Char) (monthly : Bool) : Option ParsedSymbol :=
  let optType := if endsPE tail then "PE" else "CE"
  let strikeStr := tail.take (tail.length - 2)
  match pyInt strikeStr with
  | none => none
  | some k =>
      some { symbol := String.mk u
             dd := String.mk dd
             mon := mon
             yyyy := String.mk yyyy
             option_type := optType
             strike := k
             series := if idxSymbols.contains (String.mk u) then "OPTIDX" else "OPTSTK"
             is_monthly_expiry := monthly }

/-- `parse_zerodha_option_symbol` (copy_trader.py lines 150-207).  The
function is embedded totally: every path on which the Python code raises
(`KeyError` on an unknown weekly month code, `IndexError` on a truncated
ticker, `ValueError` from `int`) returns `none`; the caller's catch-all
`except` is what absorbs these in the source. -/
def parse_zerodha_option_symbol (sym : String) : Option ParsedSymbol :=
  let cs := sym.data
  let underlying := cs.takeWhile Char.isAlpha
  let rest := cs.dropWhile Char.isAlpha
  let yy := rest.take 2
  let yyyy := '2' :: '0' :: yy
  let monthPart := ((rest.drop 2).take 3).map Char.toUpper
  match monthLookup monthPart with
  | some mon =>
      finishParse underlying ['0', '1'] mon yyyy (rest.drop 5) true
  | none =>
      match rest.drop 2 with
      | [] => none
      | c :: _ =>
          match monMapW c with
          | none => none
          | some mon =>
              finishParse underlying ((rest.drop 3).take 2) mon yyyy (rest.drop 5) false

/-- Price adjustment of the Mirror Loop (copy_trader.py lines 444-458):
`one_percent = price * 0.01`; BUY adds it and rounds up to the 0.05 tick
(`math.ceil(adjusted / ticksize) * ticksize`), any other side (the code's
`else` branch, commented SELL) subtracts it and rounds down
(`math.floor(...) * ticksize`).  The constant `ticksize = 0.05` makes the
guard `ticksize and ticksize > 0` always true.  Binary floating point is
modelled by exact rationals. -/
def adjustPrice (side : String) (price : ℚ) : ℚ :=
  let onePercent := price * (1 / 100)
  let ticksize : ℚ := 1 / 20
  if side = "BUY" then
    (⌈(price + onePercent) / ticksize⌉ : ℚ) * ticksize
  else
    (⌊(price - onePercent) / ticksize⌋ : ℚ) * ticksize

lemma adjustPrice_buy (p : ℚ) :
    adjustPrice "BUY" p = (⌈(p + p * (1 / 100)) / (1 / 20)⌉ : ℚ) * (1 / 20) := rfl

lemma adjustPrice_sell (p : ℚ) :
    adjustPrice "SELL" p = (⌊(p - p * (1 / 100)) / (1 / 20)⌋ : ℚ) * (1 / 20) := rfl

/-- `startsW n h` holds when the character list `h` starts with `n`. -/
def startsW : List Char → List Char → Bool
  | [], _ => true
  | _ :: _, [] => false
  | a :: n, b :: h => a == b && startsW n h

/-- Substring test on character lists; models Python's `needle in hay`. -/
def hasSub (needle : List Char) : List Char → Bool
  | [] => startsW needle []
  | c :: t => startsW needle (c :: t) || hasSub needle t

/-- Python `needle in hay` on strings. -/
def pyIn (needle hay : String) : Bool := hasSub needle.data hay.data

/-- Python `str.upper()`, character by character (kernel-friendly form of
`String.toUpper`). -/
def pyUpper (s : String) : String := String.mk (s.data.map Char.toUpper)

/-- `get_exchange_segment_numeric_for_marketdata`: 12 (BSEFO) when the
uppercased symbol contains "SENSEX", else 2 (NSEFO). -/
def get_exchange_segment_numeric_for_marketdata (symbol : String) : Nat :=
  if pyIn "SENSEX" (pyUpper symbol) then 12 else 2

/-- `get_exchange_segment_string_for_order`: "NSEFO" when the uppercased
symbol contains any of the four index names, "BSEFO" when it contains
"SENSEX", else the "NSEFO" default. -/
def get_exchange_segment_string_for_order (symbol : String) : String :=
  if ["NIFTY", "BANKNIFTY", "MIDCPNIFTY", "FINNIFTY"].any (fun x => pyIn x (pyUpper symbol)) then
    "NSEFO"
  else if pyIn "SENSEX" (pyUpper symbol) then "BSEFO"
  else "NSEFO"

/-- One available expiry date from `get_expiry_date`.  The broker returns
strings in the fixed-width format `"%Y-%m-%dT%H:%M:%S"`; they are modelled
pre-parsed, which is faithful because lexicographic order on the fixed-width
strings coincides with lexicographic order on (year, month, day). -/
structure ExpDate where
  year : Nat
  month : Nat
  day : Nat
deriving DecidableEq, Repr

/-- Date comparison: lexicographic on (year, month, day), mirroring string
comparison of the ISO-format expiry strings. -/
def dLE (a b : ExpDate) : Bool :=
  decide (a.year < b.year ∨ (a.year = b.year ∧
    (a.month < b.month ∨ (a.month = b.month ∧ a.day ≤ b.day))))

/-- `sorted(matching_dates, reverse=True)[0]`: the greatest date of the list
(`none` on the empty list). -/
def latestDate : List ExpDate → Option ExpDate
  | [] => none
  | d :: t =>
      match latestDate t with
      | none => some d
      | some m => some (if dLE m d then d else m)

/-- The `month_names` list of `resolve_5p_instrument`. -/
def monthNames : List String :=
  ["Jan", "Feb", "Mar", "Apr", "May", "Jun", "Jul", "Aug", "Sep", "Oct", "Nov", "Dec"]

/-- `f"{n:02d}"` for the day values that occur (0 ≤ n ≤ 99). -/
def pad2 (n : Nat) : String := if n < 10 then "0" ++ Nat.repr n else Nat.repr n

/-- `f"{dt.day:02d}{month_names[dt.month-1]}{dt.year}"`. -/
def formatExp (d : ExpDate) : String :=
  pad2 d.day ++ monthNames.getD (d.month - 1) "" ++ Nat.repr d.year

/-- Month abbreviation back to its number (the `%b` direction of
`strptime`). -/
def monthNum (m : String) : Option Nat :=
  if m = "Jan" then some 1
  else if m = "Feb" then some 2
  else if m = "Mar" then some 3
  else if m = "Apr" then some 4
  else if m = "May" then some 5
  else if m = "Jun" then some 6
  else if m = "Jul" then some 7
  else if m = "Aug" then some 8
  else if m = "Sep" then some 9
  else if m = "Oct" then some 10
  else if m = "Nov" then some 11
  else if m = "Dec" then some 12
  else none

/-- `datetime.strptime(parsed["expiry_api_format"], "%d%b%Y")`, reduced to
the (year, month) pair the resolver uses: succeeds exactly when the day and
year pieces are numeric and the month abbreviation is a table entry (always
true on the monthly path, where `dd = "01"` and the month came from the
table); a failure raises and is caught, embedded as `none`. -/
def targetYM (p : ParsedSymbol) : Option (Nat × Nat) :=
  match digitsQ p.dd.data, monthNum p.mon, digitsQ p.yyyy.data with
  | some _, some m, some y => some (y, m)
  | _, _, _ => none

/-- The monthly-expiry selection block of `resolve_5p_instrument` (lines
87-131): given the `get_expiry_date` response (`none` covers an error
response, an unexpected response and a raised exception — all of which only
log), filter the dates to the decoded month/year, pick the latest and format
it; every failure path falls back to the decode-time
`parsed["expiry_api_format"]` (day "01"). -/
def monthlyExpiryFor (p : ParsedSymbol) (resp : Option (List ExpDate)) : String :=
  match resp with
  | some dates =>
      if dates.isEmpty then expiryApiFormat p
      else
        match targetYM p with
        | none => expiryApiFormat p
        | some (ty, tm) =>
            let matching := dates.filter (fun d => decide (d.month = tm ∧ d.year = ty))
            match latestDate matching with
            | some d => formatExp d
            | none => expiryApiFormat p
  | none => expiryApiFormat p

/-- The target broker's data client as seen by `resolve_5p_instrument`:
`get_expiry_date` (arguments: exchangeSegment, series, symbol) and
`get_option_symbol` (arguments: exchangeSegment, series, symbol, expiryDate,
optionType, strikePrice).  `none` models an error/unexpected response or a
raised exception; `some []` models a success with an empty (falsy) result. -/
structure ResolveEnv where
  expiryResp : Nat → String → String → Option (List ExpDate)
  getOptionSymbol : Nat → String → String → String → String → Int → Option (List Int)

/-- `resolve_5p_instrument` (copy_trader.py lines 72-147).  The instrument
record is reduced to its `ExchangeInstrumentID`.  The function's catch-all
`except` makes it total: a parse failure, a failed lookup and an exception
all return `None`, embedded as `none`.  The `exch` argument is unused, as in
the source. -/
def resolve_5p_instrument (xm : ResolveEnv) (exch : String) (tradingsymbol : String) :
    Option Int :=
  match parse_zerodha_option_symbol tradingsymbol with
  | none => none
  | some parsed =>
      let seg := get_exchange_segment_numeric_for_marketdata parsed.symbol
      let expiryDate :=
        if parsed.is_monthly_expiry then
          monthlyExpiryFor parsed (xm.expiryResp seg parsed.series parsed.symbol)
        else expiryApiFormat parsed
      match xm.getOptionSymbol seg parsed.series parsed.symbol expiryDate
          parsed.option_type parsed.strike with
      | some (i :: _) => some i
      | _ => none

/-- One value of `mapping["orders"]`: either a skip record
`{"skipped": True, "reason": ...}` or a success mapping
`{"fivep": ..., "symbol": ..., "side": ..., "qty": ..., "tqty": ...}`. -/
inductive LedgerEntry
  | skipped (reason : String)
  | mapped (fivep : Option Int) (symbol : String) (side : String) (qty : Int) (tqty : Int)
deriving DecidableEq, Repr

/-- The pre-start skip record. -/
def preStartEntry : LedgerEntry := LedgerEntry.skipped "opened before start"

/-- Python dict assignment `d[k] = v` on an association list: replace in
place when the key exists, else append (insertion order preserved, as for a
Python dict). -/
def dictInsert (k : String) (v : LedgerEntry) :
    List (String × LedgerEntry) → List (String × LedgerEntry)
  | [] => [(k, v)]
  | (k', v') :: t => if k' = k then (k, v) :: t else (k', v') :: dictInsert k v t

/-- `seen.add(k)` on a list-represented set. -/
def addSeen (l : List String) (k : String) : List String :=
  if k ∈ l then l else l ++ [k]

/-- The Mirror Loop's cross-iteration state: `mapping["orders"]`, the
`mapping["_started"]` watermark (present or not) and the in-memory `seen`
set. -/
structure LoopState where
  orders : List (String × LedgerEntry)
  started : Bool
  seen : List String
deriving DecidableEq, Repr

/-- Observable actions of one poll pass, in program order: a ledger-entry
write, the watermark write, a `save_mapping` call, and a `place_order`
call (with quantity, limit price, client-order id, instrument and side). -/
inductive Ev
  | wentry (id : String) (e : LedgerEntry)
  | wstart
  | save
  | place (qty : Int) (price : ℚ) (uid : String) (instId : Int) (side : String)
deriving DecidableEq

/-- Loop control after handling one order: fall through to the next order,
or `break` out of the batch (the snapshot path). -/
inductive Ctl
  | next
  | brk
deriving DecidableEq, Repr

/-- `place_order` outcome: a success response (carrying the optional
`AppOrderID`), a non-success response, or a raised exception. -/
inductive PlaceResp
  | success (appOrderId : Option Int)
  | failure
  | exn
deriving DecidableEq

/-- Broker behaviour for one order: the quote results (`get_ask` /
`get_bid`, already reduced to their `Optional[float]` interface, as
rationals) and the placement outcome. -/
structure OrderEnv where
  askPrice : Option ℚ
  bidPrice : Option ℚ
  placeResp : PlaceResp

/-- One entry of the source broker's order list.  `order_dt` models the
timestamp comparison input: `none` when `ts` is absent/falsy or of unknown
type (no check), `some none` when parsing raises, `some (some t)` for a
successfully obtained naive local datetime, as a comparable integer. -/
structure ZOrder where
  order_id : String
  status : String
  order_dt : Option (Option Int)
  exchange : String
  tradingsymbol : String
  filled_quantity : Option Int
  quantity : Option Int
  transaction_type : String

/-- Loop configuration: the quantity multiplier and the start time converted
to naive local time (`start_time.astimezone().replace(tzinfo=None)`), as a
comparable integer. -/
structure Cfg where
  multiplier : Int
  startLocal : Int

/-- Python `a or b` for an optional integer `a` (both `None` and `0` are
falsy). -/
def pyOr (a : Option Int) (b : Int) : Int :=
  match a with
  | some v => if v = 0 then b else v
  | none => b

/-- `int(o.get("filled_quantity") or o.get("quantity") or 0)` (line 361). -/
def qtyOf (o : ZOrder) : Int := pyOr o.filled_quantity (pyOr o.quantity 0)

/-- The mirrored quantity for given filled/ordered quantities and
multiplier: line 361 composed with `max(1, int(qty) * multiplier)`
(line 427). -/
def mirroredQty (filled quantity : Option Int) (m : Int) : Int :=
  max 1 (pyOr filled (pyOr quantity 0) * m)

/-- The snapshot marking loop (lines 377-382): every order of the fetched
batch not yet in `seen` gets a pre-start skip entry and joins `seen`. -/
def snapEntries : List ZOrder → LoopState → LoopState × List Ev
  | [], st => (st, [])
  | ho :: t, st =>
      if ho.order_id ∈ st.seen then snapEntries t st
      else
        let st' : LoopState :=
          { st with orders := dictInsert ho.order_id preStartEntry st.orders,
                    seen := addSeen st.seen ho.order_id }
        let r := snapEntries t st'
        (r.1, Ev.wentry ho.order_id preStartEntry :: r.2)

/-- The first-run snapshot pass (lines 372-386): set the watermark, save,
mark every fetched order, save again, `break` out of the batch. -/
def snapshotPass (orders : List ZOrder) (st : LoopState) : LoopState × List Ev × Ctl :=
  let st1 : LoopState := { st with started := true }
  let r := snapEntries orders st1
  (r.1, Ev.wstart :: Ev.save :: (r.2 ++ [Ev.save]), Ctl.brk)

/-- Per-order handling after the timestamp check (lines 417-518): resolve
the instrument (failure: mark seen, continue, no ledger write), fetch the
side-appropriate quote (failure: likewise), adjust the price, place the
order; a success response writes the mapping and saves; a non-success
response or an exception only marks seen. -/
def handleAfterTs (cfg : Cfg) (xm : ResolveEnv) (env : OrderEnv) (o : ZOrder)
    (st : LoopState) : LoopState × List Ev × Ctl :=
  let zid := o.order_id
  let symbol := o.tradingsymbol
  let side := pyUpper o.transaction_type
  match resolve_5p_instrument xm o.exchange symbol with
  | none => ({ st with seen := addSeen st.seen zid }, [], Ctl.next)
  | some instId =>
      let targetQty := max 1 (qtyOf o * cfg.multiplier)
      match (if side = "BUY" then env.askPrice else env.bidPrice) with
      | none => ({ st with seen := addSeen st.seen zid }, [], Ctl.next)
      | some price =>
          let adjusted := adjustPrice side price
          let pl := Ev.place targetQty adjusted ("Z2F-" ++ zid) instId side
          match env.placeResp with
          | PlaceResp.success appId =>
              let entry := LedgerEntry.mapped appId symbol side (qtyOf o) targetQty
              ({ st with orders := dictInsert zid entry st.orders,
                         seen := addSeen st.seen zid },
               [pl, Ev.wentry zid entry, Ev.save], Ctl.next)
          | PlaceResp.failure => ({ st with seen := addSeen st.seen zid }, [pl], Ctl.next)
          | PlaceResp.exn => ({ st with seen := addSeen st.seen zid }, [pl], Ctl.next)

/-- The Mirror Loop's per-order handling (the body of `for o in orders:`,
lines 355-518): the `seen` guard, the `COMPLETE` filter, the first-run
snapshot, the pre-start timestamp check (note: its skip entry is written
without a save), then `handleAfterTs`. -/
def handleOrder (cfg : Cfg) (xm : ResolveEnv) (env : OrderEnv) (orders : List ZOrder)
    (o : ZOrder) (st : LoopState) : LoopState × List Ev × Ctl :=
  let zid := o.order_id
  let status := pyUpper o.status
  if zid ∈ st.seen then (st, [], Ctl.next)
  else if status ≠ "COMPLETE" then (st, [], Ctl.next)
  else if st.started = false then snapshotPass orders st
  else
    match o.order_dt with
    | some none => ({ st with seen := addSeen st.seen zid }, [], Ctl.next)
    | some (some t) =>
        if t < cfg.startLocal then
          ({ st with orders := dictInsert zid preStartEntry st.orders,
                     seen := addSeen st.seen zid },
           [Ev.wentry zid preStartEntry], Ctl.next)
        else handleAfterTs cfg xm env o st
    | none => handleAfterTs cfg xm env o st

/-- Sequential processing of the remaining orders of one fetched batch;
`orders` is the full batch (the snapshot path iterates over all of it), and
`envs` gives each order's broker behaviour by order id. -/
def processOrders (cfg : Cfg) (xm : ResolveEnv) (envs : String → OrderEnv)
    (orders : List ZOrder) : List ZOrder → LoopState → LoopState × List Ev
  | [], st => (st, [])
  | o :: rest, st =>
      let r := handleOrder cfg xm (envs o.order_id) orders o st
      match r.2.2 with
      | Ctl.brk => (r.1, r.2.1)
      | Ctl.next =>
          let r2 := processOrders cfg xm envs orders rest r.1
          (r2.1, r.2.1 ++ r2.2)

/-- One full poll pass over a fetched batch. -/
def processBatch (cfg : Cfg) (xm : ResolveEnv) (envs : String → OrderEnv)
    (orders : List ZOrder) (st : LoopState) : LoopState × List Ev :=
  processOrders cfg xm envs orders orders st

/-- One attempt of `read_multiplier` for one key: the key must be present
and its value parse as a number (`int(float(v))`, embedded as an already
parsed optional integer), and the result is floored to 1. -/
def rmTry (z : List (String × Option Int)) (k : String) : Option Int :=
  match z.lookup k with
  | some (some v) => some (max 1 v)
  | _ => none

/-- `read_multiplier` (lines 60-69): try the three key variants in order; a
missing key or an unparseable value falls through to the next; default 1. -/
def readMultiplier (z : List (String × Option Int)) : Int :=
  ((rmTry z "copytradeqtymultiplier").orElse fun _ =>
    (rmTry z "copy_trade_qty_multiplier").orElse fun _ =>
      rmTry z "multiplier").getD 1

/-- Event classifiers and counters. -/
def isPlaceEv : Ev → Bool
  | Ev.place _ _ _ _ _ => true
  | _ => false

def isWriteEv : Ev → Bool
  | Ev.wentry _ _ => true
  | Ev.wstart => true
  | _ => false

def isStartEv : Ev → Bool
  | Ev.wstart => true
  | _ => false

def isSaveEv : Ev → Bool
  | Ev.save => true
  | _ => false

def placeCount (evs : List Ev) : Nat := (evs.filter isPlaceEv).length

/-- Quantity of the first placed order in an event trace, if any. -/
def firstPlaceQty : List Ev → Option Int
  | [] => none
  | Ev.place q _ _ _ _ :: _ => some q
  | _ :: t => firstPlaceQty t

/-- `true` when some ledger mutation is followed by another mutation with no
intervening save, i.e. when mutations are batched; `dirty` carries whether
an unsaved mutation is pending. -/
def mutationsBatchedAux (dirty : Bool) : List Ev → Bool
  | [] => false
  | Ev.wentry _ _ :: t => if dirty then true else mutationsBatchedAux true t
  | Ev.wstart :: t => if dirty then true else mutationsBatchedAux true t
  | Ev.save :: t => mutationsBatchedAux false t
  | Ev.place _ _ _ _ _ :: t => mutationsBatchedAux dirty t

def mutationsBatched (evs : List Ev) : Bool := mutationsBatchedAux false evs

/-- A price that is an integer multiple of the fixed 0.05 tick. -/
def isTick (q : ℚ) : Prop := ∃ k : ℤ, q = (k : ℚ) * (1 / 20)

lemma tickPos : (0 : ℚ) < 1 / 20 := by norm_num

/-- C5: for a BUY mirror the limit price is the best ask plus 1% slippage
rounded up to the nearest multiple of the 0.05 tick (the smallest tick
multiple ≥ 1.01 × ask); for a SELL mirror it is the best bid minus 1%
slippage rounded down (the largest tick multiple ≤ 0.99 × bid); a quoted
price of 10.02 yields 10.15 on BUY and 9.90 on SELL. -/
theorem claim_C5_price_rounding :
    (∀ p : ℚ, isTick (adjustPrice "BUY" p) ∧
      (101 / 100) * p ≤ adjustPrice "BUY" p ∧
      (∀ q : ℚ, isTick q → (101 / 100) * p ≤ q → adjustPrice "BUY" p ≤ q)) ∧
    (∀ p : ℚ, isTick (adjustPrice "SELL" p) ∧
      adjustPrice "SELL" p ≤ (99 / 100) * p ∧
      (∀ q : ℚ, isTick q → q ≤ (99 / 100) * p → q ≤ adjustPrice "SELL" p)) ∧
    adjustPrice "BUY" (1002 / 100) = 203 / 20 ∧
    adjustPrice "SELL" (1002 / 100) = 99 / 10 := by
  refine ⟨fun p => ?_, fun p => ?_, ?_, ?_⟩
  · rw [adjustPrice_buy, show p + p * (1 / 100) = (101 / 100) * p from by ring]
    refine ⟨⟨_, rfl⟩, ?_, ?_⟩
    · rw [← div_le_iff tickPos]
      exact Int.le_ceil _
    · rintro q ⟨k, rfl⟩ hq
      have h1 : (101 / 100) * p / (1 / 20) ≤ (k : ℚ) := by
        rw [div_le_iff tickPos]
        exact hq
      have h2 : (⌈(101 / 100) * p / (1 / 20)⌉ : ℚ) ≤ (k : ℚ) := by
        exact_mod_cast Int.ceil_le.mpr h1
      exact mul_le_mul_of_nonneg_right h2 (le_of_lt tickPos)
  · rw [adjustPrice_sell, show p - p * (1 / 100) = (99 / 100) * p from by ring]
    refine ⟨⟨_, rfl⟩, ?_, ?_⟩
    · rw [← le_div_iff tickPos]
      exact Int.floor_le _
    · rintro q ⟨k, rfl⟩ hq
      have h1 : (k : ℚ) ≤ (99 / 100) * p / (1 / 20) := by
        rw [le_div_iff tickPos]
        exact hq
      have h2 : (k : ℚ) ≤ (⌊(99 / 100) * p / (1 / 20)⌋ : ℚ) := by
        exact_mod_cast Int.le_floor.mpr h1
      exact mul_le_mul_of_nonneg_right h2 (le_of_lt tickPos)
  · rw [adjustPrice_buy]
    rw [show ⌈((1002 : ℚ) / 100 + 1002 / 100 * (1 / 100)) / (1 / 20)⌉ = (203 : ℤ) from by
      rw [Int.ceil_eq_iff]; norm_num]
    norm_num
  · rw [adjustPrice_sell]
    rw [show ⌊((1002 : ℚ) / 100 - 1002 / 100 * (1 / 100)) / (1 / 20)⌋ = (198 : ℤ) from by
      rw [Int.floor_eq_iff]; norm_num]
    norm_num

/-- C5 witness: the rounding bounds applied at the concrete quote 10.02,
with the tick-multiple hypotheses discharged at 10.15 and 9.90. -/
theorem claim_C5_witness :
    (101 / 100) * ((1002 : ℚ) / 100) ≤ adjustPrice "BUY" (1002 / 100) ∧
    adjustPrice "BUY" (1002 / 100) ≤ 203 / 20 ∧
    adjustPrice "SELL" (1002 / 100) ≤ (99 / 100) * ((1002 : ℚ) / 100) ∧
    (99 : ℚ) / 10 ≤ adjustPrice "SELL" (1002 / 100) :=
  ⟨(claim_C5_price_rounding.1 (1002 / 100)).2.1,
   (claim_C5_price_rounding.1 (1002 / 100)).2.2 (203 / 20) ⟨203, by norm_num⟩ (by norm_num),
   (claim_C5_price_rounding.2.1 (1002 / 100)).2.1,
   (claim_C5_price_rounding.2.1 (1002 / 100)).2.2 (99 / 10) ⟨198, by norm_num⟩ (by norm_num)⟩

lemma takeWhile_all_append (p : Char → Bool) (u : List Char) (b : Char) (v : List Char)
    (hu : ∀ c ∈ u, p c = true) (hb : p b = false) :
    (u ++ b :: v).takeWhile p = u := by
  induction u with
  | nil => simp [List.takeWhile_cons, hb]
  | cons a t ih =>
      have ha : p a = true := hu a (by simp)
      simp only [List.cons_append, List.takeWhile_cons, ha, if_true]
      rw [ih (fun c hc => hu c (by simp [hc]))]

lemma dropWhile_all_append (p : Char → Bool) (u : List Char) (b : Char) (v : List Char)
    (hu : ∀ c ∈ u, p c = true) (hb : p b = false) :
    (u ++ b :: v).dropWhile p = b :: v := by
  induction u with
  | nil => simp [List.dropWhile_cons, hb]
  | cons a t ih =>
      have ha : p a = true := hu a (by simp)
      simp only [List.cons_append, List.dropWhile_cons, ha, if_true]
      exact ih (fun c hc => hu c (by simp [hc]))

lemma digit_not_alpha {c : Char} (h : c ∈ digitChars) : c.isAlpha = false := by
  fin_cases h <;> decide

lemma digit_toUpper {c : Char} (h : c ∈ digitChars) : c.toUpper = c := by
  fin_cases h <;> decide

lemma code_toUpper {c : Char} (h : c ∈ weeklyCodes) : c.toUpper = c := by
  fin_cases h <;> decide

lemma monthLookup_digit_mid (x y d : Char) (hd : d ∈ digitChars) :
    monthLookup [x, d, y] = none := by
  fin_cases hd <;> simp [monthLookup]

lemma digitsQ_digits (s : List Char) (h1 : s ≠ []) (h2 : ∀ c ∈ s, c ∈ digitChars) :
    digitsQ s = some (digitsVal s) := by
  have he : s.isEmpty = false := by
    cases s with
    | nil => exact absurd rfl h1
    | cons a t => rfl
  have ha : s.all (fun c => decide (c ∈ digitChars)) = true := by
    rw [List.all_eq_true]
    intro c hc
    exact decide_eq_true (h2 c hc)
  unfold digitsQ
  rw [he, ha]
  rfl

lemma pyInt_digits (s : List Char) (h1 : s ≠ []) (h2 : ∀ c ∈ s, c ∈ digitChars) :
    pyInt s = some (Int.ofNat (digitsVal s)) := by
  obtain ⟨c, t, rfl⟩ : ∃ c t, s = c :: t := by
    cases s with
    | nil => exact absurd rfl h1
    | cons c t => exact ⟨c, t, rfl⟩
  have hc := h2 c (by simp)
  have hp : c ≠ '+' := by fin_cases hc <;> decide
  have hm : c ≠ '-' := by fin_cases hc <;> decide
  simp only [pyInt]
  rw [if_neg hp, if_neg hm, digitsQ_digits _ h1 h2]
  rfl

lemma take_len_append (s t : List Char) : (s ++ t).take s.length = s := by
  induction s with
  | nil => simp
  | cons a u ih => simp [ih]

lemma strikeStr_eq (s : List Char) (a b : Char) :
    (s ++ [a, b]).take ((s ++ [a, b]).length - 2) = s := by
  have hl : (s ++ [a, b]).length - 2 = s.length := by simp
  rw [hl, take_len_append]

lemma endsPE_append (s : List Char) (a b : Char) :
    endsPE (s ++ [a, b]) = (b == 'E' && a == 'P') := by
  unfold endsPE
  rw [show (s ++ [a, b]).reverse = b :: a :: s.reverse from by simp]

/-- Complete decoding of the weekly grammar U+YY+M+DD+STRIKE+T: any ticker
built from a nonempty alphabetic underlying, a digit-leading two-character
year, a month-code letter from the fixed table, two digit day characters, a
nonempty digit strike and a CE/PE suffix decodes to exactly its
components. -/
lemma parse_weekly (u : List Char) (y1 y2 m d1 d2 : Char) (s : List Char) (t1 t2 : Char)
    (mon : String)
    (hua : ∀ c ∈ u, c.isAlpha = true)
    (hy1 : y1 ∈ digitChars)
    (hm : monMapW m = some mon) (hmw : m ∈ weeklyCodes)
    (hd1 : d1 ∈ digitChars) (hd2 : d2 ∈ digitChars)
    (hs : s ≠ []) (hsd : ∀ c ∈ s, c ∈ digitChars)
    (ht : (t1 = 'C' ∧ t2 = 'E') ∨ (t1 = 'P' ∧ t2 = 'E')) :
    parse_zerodha_option_symbol
        (String.mk (u ++ y1 :: y2 :: m :: d1 :: d2 :: (s ++ [t1, t2]))) =
      some { symbol := String.mk u
             dd := String.mk [d1, d2]
             mon := mon
             yyyy := String.mk ['2', '0', y1, y2]
             option_type := if t1 = 'P' then "PE" else "CE"
             strike := Int.ofNat (digitsVal s)
             series := if idxSymbols.contains (String.mk u) then "OPTIDX" else "OPTSTK"
             is_monthly_expiry := false } := by
  have hna : Char.isAlpha y1 = false := digit_not_alpha hy1
  have htw : (u ++ y1 :: y2 :: m :: d1 :: d2 :: (s ++ [t1, t2])).takeWhile Char.isAlpha = u :=
    takeWhile_all_append _ _ _ _ hua hna
  have hdw : (u ++ y1 :: y2 :: m :: d1 :: d2 :: (s ++ [t1, t2])).dropWhile Char.isAlpha =
      y1 :: y2 :: m :: d1 :: d2 :: (s ++ [t1, t2]) :=
    dropWhile_all_append _ _ _ _ hua hna
  have hml : monthLookup ([m, d1, d2].map Char.toUpper) = none := by
    simp only [List.map, code_toUpper hmw, digit_toUpper hd1, digit_toUpper hd2]
    exact monthLookup_digit_mid _ _ _ hd1
  simp only [parse_zerodha_option_symbol, String.data]
  rw [htw, hdw]
  simp only [List.take_succ_cons, List.take_zero, List.drop_succ_cons, List.drop_zero]
  rw [hml, hm]
  simp only [finishParse, endsPE_append, strikeStr_eq]
  rw [pyInt_digits s hs hsd]
  rcases ht with ⟨rfl, rfl⟩ | ⟨rfl, rfl⟩ <;> rfl

/-- Complete decoding of the monthly grammar U+YY+MON+STRIKE+T: the
3-letter month abbreviation selects the monthly branch, the day is left at
the "01" placeholder and the ambiguity flag is set. -/
lemma parse_monthly (u : List Char) (y1 y2 m1 m2 m3 : Char) (s : List Char) (t1 t2 : Char)
    (mon : String)
    (hua : ∀ c ∈ u, c.isAlpha = true)
    (hy1 : y1 ∈ digitChars)
    (hm : monthLookup ([m1, m2, m3].map Char.toUpper) = some mon)
    (hs : s ≠ []) (hsd : ∀ c ∈ s, c ∈ digitChars)
    (ht : (t1 = 'C' ∧ t2 = 'E') ∨ (t1 = 'P' ∧ t2 = 'E')) :
    parse_zerodha_option_symbol
        (String.mk (u ++ y1 :: y2 :: m1 :: m2 :: m3 :: (s ++ [t1, t2]))) =
      some { symbol := String.mk u
             dd := "01"
             mon := mon
             yyyy := String.mk ['2', '0', y1, y2]
             option_type := if t1 = 'P' then "PE" else "CE"
             strike := Int.ofNat (digitsVal s)
             series := if idxSymbols.contains (String.mk u) then "OPTIDX" else "OPTSTK"
             is_monthly_expiry := true } := by
  have hna : Char.isAlpha y1 = false := digit_not_alpha hy1
  have htw : (u ++ y1 :: y2 :: m1 :: m2 :: m3 :: (s ++ [t1, t2])).takeWhile Char.isAlpha = u :=
    takeWhile_all_append _ _ _ _ hua hna
  have hdw : (u ++ y1 :: y2 :: m1 :: m2 :: m3 :: (s ++ [t1, t2])).dropWhile Char.isAlpha =
      y1 :: y2 :: m1 :: m2 :: m3 :: (s ++ [t1, t2]) :=
    dropWhile_all_append _ _ _ _ hua hna
  simp only [parse_zerodha_option_symbol, String.data]
  rw [htw, hdw]
  simp only [List.take_succ_cons, List.take_zero, List.drop_succ_cons, List.drop_zero]
  rw [hm]
  simp only [finishParse, endsPE_append, strikeStr_eq]
  rw [pyInt_digits s hs hsd]
  rcases ht with ⟨rfl, rfl⟩ | ⟨rfl, rfl⟩ <;> rfl

/-- C7: decode recovers exactly the components of both supported grammars:
weekly tickers U+YY+M+DD+STRIKE+T give underlying, year 20YY, the coded
month, the day, the integer strike, PE↔PUT / CE↔CALL, series OPTIDX exactly
for the four index underlyings, with the ambiguity flag clear; monthly
tickers U+YY+MON+STRIKE+T give the same with the day left at the "01"
placeholder and `is_monthly_expiry = true`; in particular the two spec
examples decode as stated. -/
theorem claim_C7_decode_grammar :
    (∀ (u : List Char) (y1 y2 m d1 d2 : Char) (s : List Char) (t1 t2 : Char) (mon : String),
      (∀ c ∈ u, c.isAlpha = true) → y1 ∈ digitChars →
      monMapW m = some mon → m ∈ weeklyCodes →
      d1 ∈ digitChars → d2 ∈ digitChars →
      s ≠ [] → (∀ c ∈ s, c ∈ digitChars) →
      ((t1 = 'C' ∧ t2 = 'E') ∨ (t1 = 'P' ∧ t2 = 'E')) →
      parse_zerodha_option_symbol
          (String.mk (u ++ y1 :: y2 :: m :: d1 :: d2 :: (s ++ [t1, t2]))) =
        some { symbol := String.mk u
               dd := String.mk [d1, d2]
               mon := mon
               yyyy := String.mk ['2', '0', y1, y2]
               option_type := if t1 = 'P' then "PE" else "CE"
               strike := Int.ofNat (digitsVal s)
               series := if idxSymbols.contains (String.mk u) then "OPTIDX" else "OPTSTK"
               is_monthly_expiry := false }) ∧
    (∀ (u : List Char) (y1 y2 m1 m2 m3 : Char) (s : List Char) (t1 t2 : Char) (mon : String),
      (∀ c ∈ u, c.isAlpha = true) → y1 ∈ digitChars →
      monthLookup ([m1, m2, m3].map Char.toUpper) = some mon →
      s ≠ [] → (∀ c ∈ s, c ∈ digitChars) →
      ((t1 = 'C' ∧ t2 = 'E') ∨ (t1 = 'P' ∧ t2 = 'E')) →
      parse_zerodha_option_symbol
          (String.mk (u ++ y1 :: y2 :: m1 :: m2 :: m3 :: (s ++ [t1, t2]))) =
        some { symbol := String.mk u
               dd := "01"
               mon := mon
               yyyy := String.mk ['2', '0', y1, y2]
               option_type := if t1 = 'P' then "PE" else "CE"
               strike := Int.ofNat (digitsVal s)
               series := if idxSymbols.contains (String.mk u) then "OPTIDX" else "OPTSTK"
               is_monthly_expiry := true }) ∧
    parse_zerodha_option_symbol "NIFTY25N0425800PE" =
      some ⟨"NIFTY", "04", "Nov", "2025", "PE", 25800, "OPTIDX", false⟩ ∧
    parse_zerodha_option_symbol "BANKNIFTY25NOV59500CE" =
      some ⟨"BANKNIFTY", "01", "Nov", "2025", "CE", 59500, "OPTIDX", true⟩ := by
  refine ⟨?_, ?_, by decide, by decide⟩
  · intro u y1 y2 m d1 d2 s t1 t2 mon hua hy1 hm hmw hd1 hd2 hs hsd ht
    exact parse_weekly u y1 y2 m d1 d2 s t1 t2 mon hua hy1 hm hmw hd1 hd2 hs hsd ht
  · intro u y1 y2 m1 m2 m3 s t1 t2 mon hua hy1 hm hs hsd ht
    exact parse_monthly u y1 y2 m1 m2 m3 s t1 t2 mon hua hy1 hm hs hsd ht

/-- C7 witness: both grammar statements applied at the spec's concrete
tickers, every hypothesis discharged by computation. -/
theorem claim_C7_witness :
    parse_zerodha_option_symbol
        (String.mk (['N', 'I', 'F', 'T', 'Y'] ++ '2' :: '5' :: 'N' :: '0' :: '4' ::
          (['2', '5', '8', '0', '0'] ++ ['P', 'E']))) =
      some { symbol := String.mk ['N', 'I', 'F', 'T', 'Y']
             dd := String.mk ['0', '4']
             mon := "Nov"
             yyyy := String.mk ['2', '0', '2', '5']
             option_type := if 'P' = 'P' then "PE" else "CE"
             strike := Int.ofNat (digitsVal ['2', '5', '8', '0', '0'])
             series := if idxSymbols.contains (String.mk ['N', 'I', 'F', 'T', 'Y'])
                       then "OPTIDX" else "OPTSTK"
             is_monthly_expiry := false } ∧
    parse_zerodha_option_symbol
        (String.mk (['B', 'A', 'N', 'K', 'N', 'I', 'F', 'T', 'Y'] ++ '2' :: '5' :: 'N' :: 'O' :: 'V' ::
          (['5', '9', '5', '0', '0'] ++ ['C', 'E']))) =
      some { symbol := String.mk ['B', 'A', 'N', 'K', 'N', 'I', 'F', 'T', 'Y']
             dd := "01"
             mon := "Nov"
             yyyy := String.mk ['2', '0', '2', '5']
             option_type := if 'C' = 'P' then "PE" else "CE"
             strike := Int.ofNat (digitsVal ['5', '9', '5', '0', '0'])
             series := if idxSymbols.contains (String.mk ['B', 'A', 'N', 'K', 'N', 'I', 'F', 'T', 'Y'])
                       then "OPTIDX" else "OPTSTK"
             is_monthly_expiry := true } :=
  ⟨claim_C7_decode_grammar.1 ['N', 'I', 'F', 'T', 'Y'] '2' '5' 'N' '0' '4'
      ['2', '5', '8', '0', '0'] 'P' 'E' "Nov"
      (by decide) (by decide) (by decide) (by decide) (by decide) (by decide)
      (by decide) (by decide) (Or.inr ⟨rfl, rfl⟩),
   claim_C7_decode_grammar.2.1 ['B', 'A', 'N', 'K', 'N', 'I', 'F', 'T', 'Y'] '2' '5' 'N' 'O' 'V'
      ['5', '9', '5', '0', '0'] 'C' 'E' "Nov"
      (by decide) (by decide) (by decide) (by decide) (by decide) (Or.inl ⟨rfl, rfl⟩)⟩

/-- C8 counterexample: a ticker whose 2-letter suffix is `XX` — neither CE
nor PE — does NOT fail: `tail.endswith("PE")` is false, so the decoder
labels it CE and strips the last two characters, succeeding. -/
theorem claim_C8_counterexample :
    parse_zerodha_option_symbol "NIFTY25N0425800XX" =
      some ⟨"NIFTY", "04", "Nov", "2025", "CE", 25800, "OPTIDX", false⟩ := by decide

/-- C8 amended: decode does fail for a weekly month code outside the fixed
12-entry table (given the three characters after the year are not a monthly
abbreviation either) and for a non-numeric strike remainder; but a 2-letter
option-type suffix other than CE/PE does not cause failure — the ticker is
decoded with option type CE. -/
theorem claim_C8_amended :
    (∀ (u : List Char) (y1 y2 c : Char) (r : List Char),
      (∀ ch ∈ u, ch.isAlpha = true) → y1 ∈ digitChars →
      monthLookup ((c :: r.take 2).map Char.toUpper) = none →
      monMapW c = none →
      parse_zerodha_option_symbol (String.mk (u ++ y1 :: y2 :: c :: r)) = none) ∧
    (∀ (u : List Char) (y1 y2 m d1 d2 : Char) (t : List Char) (mon : String),
      (∀ ch ∈ u, ch.isAlpha = true) → y1 ∈ digitChars →
      monMapW m = some mon → m ∈ weeklyCodes →
      d1 ∈ digitChars → d2 ∈ digitChars →
      pyInt (t.take (t.length - 2)) = none →
      parse_zerodha_option_symbol (String.mk (u ++ y1 :: y2 :: m :: d1 :: d2 :: t)) = none) ∧
    parse_zerodha_option_symbol "NIFTY25N0425800XX" =
      some ⟨"NIFTY", "04", "Nov", "2025", "CE", 25800, "OPTIDX", false⟩ := by
  refine ⟨?_, ?_, by decide⟩
  · intro u y1 y2 c r hua hy1 hml hmw
    have hna : Char.isAlpha y1 = false := digit_not_alpha hy1
    have htw : (u ++ y1 :: y2 :: c :: r).takeWhile Char.isAlpha = u :=
      takeWhile_all_append _ _ _ _ hua hna
    have hdw : (u ++ y1 :: y2 :: c :: r).dropWhile Char.isAlpha = y1 :: y2 :: c :: r :=
      dropWhile_all_append _ _ _ _ hua hna
    simp only [parse_zerodha_option_symbol, String.data]
    rw [htw, hdw]
    simp only [List.drop_succ_cons, List.drop_zero, List.take_succ_cons]
    rw [hml, hmw]
  · intro u y1 y2 m d1 d2 t mon hua hy1 hm hmw hd1 hd2 hpy
    have hna : Char.isAlpha y1 = false := digit_not_alpha hy1
    have htw : (u ++ y1 :: y2 :: m :: d1 :: d2 :: t).takeWhile Char.isAlpha = u :=
      takeWhile_all_append _ _ _ _ hua hna
    have hdw : (u ++ y1 :: y2 :: m :: d1 :: d2 :: t).dropWhile Char.isAlpha =
        y1 :: y2 :: m :: d1 :: d2 :: t :=
      dropWhile_all_append _ _ _ _ hua hna
    have hml : monthLookup ([m, d1, d2].map Char.toUpper) = none := by
      simp only [List.map, code_toUpper hmw, digit_toUpper hd1, digit_toUpper hd2]
      exact monthLookup_digit_mid _ _ _ hd1
    simp only [parse_zerodha_option_symbol, String.data]
    rw [htw, hdw]
    simp only [List.take_succ_cons, List.take_zero, List.drop_succ_cons, List.drop_zero]
    rw [hml, hm]
    simp only [finishParse]
    rw [hpy]

/-- C8 witness: the failure statements applied at the spec's unknown month
code `X` and at a non-numeric strike remainder. -/
theorem claim_C8_witness :
    parse_zerodha_option_symbol
        (String.mk (['N', 'I', 'F', 'T', 'Y'] ++ '2' :: '5' :: 'X' ::
          ('0' :: '4' :: '2' :: '5' :: '8' :: '0' :: '0' :: 'P' :: 'E' :: []))) = none ∧
    parse_zerodha_option_symbol
        (String.mk (['N', 'I', 'F', 'T', 'Y'] ++ '2' :: '5' :: 'N' :: '0' :: '4' ::
          ('A' :: '5' :: '8' :: '0' :: '0' :: 'P' :: 'E' :: []))) = none :=
  ⟨claim_C8_amended.1 ['N', 'I', 'F', 'T', 'Y'] '2' '5' 'X'
      ('0' :: '4' :: '2' :: '5' :: '8' :: '0' :: '0' :: 'P' :: 'E' :: [])
      (by decide) (by decide) (by decide) (by decide),
   claim_C8_amended.2.1 ['N', 'I', 'F', 'T', 'Y'] '2' '5' 'N' '0' '4'
      ('A' :: '5' :: '8' :: '0' :: '0' :: 'P' :: 'E' :: []) "Nov"
      (by decide) (by decide) (by decide) (by decide) (by decide) (by decide) (by decide)⟩

lemma lookup_cons_self (k : String) (v : LedgerEntry) (t : List (String × LedgerEntry)) :
    ((k, v) :: t).lookup k = some v := by
  simp [List.lookup]

lemma lookup_cons_ne (k k' : String) (h : k' ≠ k) (v : LedgerEntry)
    (t : List (String × LedgerEntry)) :
    ((k, v) :: t).lookup k' = t.lookup k' := by
  have hb : (k' == k) = false := beq_eq_false_iff_ne.mpr h
  simp [List.lookup, hb]

lemma lookup_dictInsert_self (k : String) (v : LedgerEntry) (l : List (String × LedgerEntry)) :
    (dictInsert k v l).lookup k = some v := by
  induction l with
  | nil => exact lookup_cons_self k v []
  | cons p t ih =>
      obtain ⟨k', v'⟩ := p
      by_cases h : k' = k
      · simp only [dictInsert, if_pos h]
        exact lookup_cons_self k v t
      · simp only [dictInsert, if_neg h]
        rw [lookup_cons_ne k' k (Ne.symm h) v' _]
        exact ih

lemma lookup_dictInsert_ne (k : String) (v : LedgerEntry) (l : List (String × LedgerEntry))
    (k' : String) (h : k' ≠ k) :
    (dictInsert k v l).lookup k' = l.lookup k' := by
  induction l with
  | nil =>
      simp only [dictInsert]
      rw [lookup_cons_ne k k' h v []]
  | cons p t ih =>
      obtain ⟨k0, v0⟩ := p
      by_cases h0 : k0 = k
      · subst h0
        simp only [dictInsert, eq_self_iff_true, if_true]
        rw [lookup_cons_ne k0 k' h v t, lookup_cons_ne k0 k' h v0 t]
      · simp only [dictInsert, if_neg h0]
        by_cases h1 : k' = k0
        · subst h1
          rw [lookup_cons_self, lookup_cons_self]
        · rw [lookup_cons_ne k0 k' h1 v0 _, lookup_cons_ne k0 k' h1 v0 t]
          exact ih

lemma mem_keys_dictInsert (k : String) (v : LedgerEntry) (l : List (String × LedgerEntry))
    (a : String) :
    a ∈ (dictInsert k v l).map Prod.fst ↔ a = k ∨ a ∈ l.map Prod.fst := by
  induction l with
  | nil => simp [dictInsert]
  | cons p t ih =>
      obtain ⟨k0, v0⟩ := p
      by_cases h0 : k0 = k
      · subst h0
        simp [dictInsert]
      · simp only [dictInsert, if_neg h0, List.map_cons, List.mem_cons, ih]
        tauto

lemma nodup_keys_dictInsert (k : String) (v : LedgerEntry) (l : List (String × LedgerEntry))
    (h : (l.map Prod.fst).Nodup) : ((dictInsert k v l).map Prod.fst).Nodup := by
  induction l with
  | nil => simp [dictInsert]
  | cons p t ih =>
      obtain ⟨k0, v0⟩ := p
      simp only [List.map_cons, List.nodup_cons] at h
      by_cases h0 : k0 = k
      · subst h0
        simp only [dictInsert, eq_self_iff_true, if_true, List.map_cons, List.nodup_cons]
        exact h
      · simp only [dictInsert, if_neg h0, List.map_cons, List.nodup_cons]
        refine ⟨?_, ih h.2⟩
        rw [mem_keys_dictInsert]
        rintro (rfl | hk)
        · exact h0 rfl
        · exact h.1 hk

lemma lookup_some_mem_keys (l : List (String × LedgerEntry)) (k : String) (e : LedgerEntry)
    (h : l.lookup k = some e) : k ∈ l.map Prod.fst := by
  induction l with
  | nil => simp [List.lookup] at h
  | cons p t ih =>
      obtain ⟨k0, v0⟩ := p
      by_cases h0 : k = k0
      · subst h0
        simp
      · rw [lookup_cons_ne k0 k h0 v0 t] at h
        simp only [List.map_cons, List.mem_cons]
        exact Or.inr (ih h)

/-- The number of ledger rows carrying a given order id. -/
def countKey (l : List (String × LedgerEntry)) (k : String) : Nat :=
  (l.filter (fun p => decide (p.1 = k))).length

lemma countKey_eq_zero (l : List (String × LedgerEntry)) (k : String)
    (h : k ∉ l.map Prod.fst) : countKey l k = 0 := by
  unfold countKey
  rw [List.length_eq_zero, List.filter_eq_nil]
  intro p hp
  simp only [decide_eq_true_eq]
  intro he
  exact h (he ▸ List.mem_map_of_mem Prod.fst hp)

lemma countKey_cons (k0 : String) (v0 : LedgerEntry) (t : List (String × LedgerEntry))
    (k : String) :
    countKey ((k0, v0) :: t) k = (if k0 = k then 1 else 0) + countKey t k := by
  unfold countKey
  rw [List.filter_cons]
  by_cases h : k0 = k <;> simp [h, Nat.add_comm]

lemma countKey_eq_one_of_nodup (l : List (String × LedgerEntry)) (k : String)
    (hn : (l.map Prod.fst).Nodup) (hk : k ∈ l.map Prod.fst) : countKey l k = 1 := by
  induction l with
  | nil => simp at hk
  | cons p t ih =>
      obtain ⟨k0, v0⟩ := p
      simp only [List.map_cons, List.nodup_cons] at hn
      simp only [List.map_cons, List.mem_cons] at hk
      rw [countKey_cons]
      by_cases h0 : k0 = k
      · subst h0
        rw [if_pos rfl, countKey_eq_zero t k0 hn.1]
      · rw [if_neg h0]
        rcases hk with rfl | hk
        · exact absurd rfl h0
        · simp [ih hn.2 hk]

lemma self_mem_addSeen (l : List String) (k : String) : k ∈ addSeen l k := by
  unfold addSeen
  by_cases h : k ∈ l <;> simp [h]

lemma mem_addSeen_of_mem (l : List String) (k a : String) (h : a ∈ l) : a ∈ addSeen l k := by
  unfold addSeen
  by_cases hk : k ∈ l <;> simp [hk, h]

lemma mem_addSeen (l : List String) (k a : String) : a ∈ addSeen l k ↔ a = k ∨ a ∈ l := by
  unfold addSeen
  by_cases hk : k ∈ l
  · simp only [if_pos hk]
    constructor
    · exact Or.inr
    · rintro (rfl | h)
      · exact hk
      · exact h
  · simp only [if_neg hk, List.mem_append, List.mem_singleton]
    tauto

/-- Loop-state invariant: every ledger key has been marked seen (true at
startup, where `seen` is rebuilt from the ledger's keys), and ledger keys
are not duplicated (true of any Python dict). -/
def LoopInv (st : LoopState) : Prop :=
  (∀ k e, st.orders.lookup k = some e → k ∈ st.seen) ∧ (st.orders.map Prod.fst).Nodup

lemma LoopInv_addSeen (st : LoopState) (h : LoopInv st) (id : String) :
    LoopInv { st with seen := addSeen st.seen id } :=
  ⟨fun k e hk => mem_addSeen_of_mem _ _ _ (h.1 k e hk), h.2⟩

lemma LoopInv_insert (st : LoopState) (h : LoopInv st) (id : String) (entry : LedgerEntry) :
    LoopInv { st with orders := dictInsert id entry st.orders, seen := addSeen st.seen id } := by
  constructor
  · intro k e hk
    by_cases hid : k = id
    · subst hid
      exact self_mem_addSeen st.seen k
    · rw [lookup_dictInsert_ne id entry st.orders k hid] at hk
      exact mem_addSeen_of_mem _ _ _ (h.1 k e hk)
  · exact nodup_keys_dictInsert id entry st.orders h.2

lemma LoopInv_started (st : LoopState) (h : LoopInv st) (b : Bool) :
    LoopInv { st with started := b } := h

lemma snapEntries_seen_mono (l : List ZOrder) (st : LoopState) (a : String)
    (h : a ∈ st.seen) : a ∈ (snapEntries l st).1.seen := by
  induction l generalizing st with
  | nil => simpa [snapEntries]
  | cons ho t ih =>
      by_cases hs : ho.order_id ∈ st.seen
      · simp only [snapEntries, if_pos hs]
        exact ih st h
      · simp only [snapEntries, if_neg hs]
        exact ih _ (mem_addSeen_of_mem _ _ _ h)

lemma snapEntries_covers (l : List ZOrder) (st : LoopState) (o : ZOrder) (ho : o ∈ l) :
    o.order_id ∈ (snapEntries l st).1.seen := by
  induction l generalizing st with
  | nil => simp at ho
  | cons h' t ih =>
      rcases List.mem_cons.mp ho with rfl | hmem
      · by_cases hs : o.order_id ∈ st.seen
        · simp only [snapEntries, if_pos hs]
          exact snapEntries_seen_mono t st _ hs
        · simp only [snapEntries, if_neg hs]
          exact snapEntries_seen_mono t _ _ (self_mem_addSeen _ _)
      · by_cases hs : h'.order_id ∈ st.seen
        · simp only [snapEntries, if_pos hs]
          exact ih st hmem
        · simp only [snapEntries, if_neg hs]
          exact ih _ hmem

lemma snapEntries_inv (l : List ZOrder) (st : LoopState) (h : LoopInv st) :
    LoopInv (snapEntries l st).1 := by
  induction l generalizing st with
  | nil => simpa [snapEntries]
  | cons ho t ih =>
      by_cases hs : ho.order_id ∈ st.seen
      · simp only [snapEntries, if_pos hs]
        exact ih st h
      · simp only [snapEntries, if_neg hs]
        exact ih _ (LoopInv_insert st h ho.order_id preStartEntry)

lemma snapEntries_preserves (l : List ZOrder) (st : LoopState) (hInv : LoopInv st)
    (k : String) (e : LedgerEntry) (h : st.orders.lookup k = some e) :
    (snapEntries l st).1.orders.lookup k = some e := by
  induction l generalizing st with
  | nil => simpa [snapEntries]
  | cons ho t ih =>
      by_cases hs : ho.order_id ∈ st.seen
      · simp only [snapEntries, if_pos hs]
        exact ih st hInv h
      · simp only [snapEntries, if_neg hs]
        have hk : k ∈ st.seen := hInv.1 k e h
        have hne : k ≠ ho.order_id := fun hkk => hs (hkk ▸ hk)
        refine ih _ (LoopInv_insert st hInv ho.order_id preStartEntry) ?_
        rw [lookup_dictInsert_ne ho.order_id preStartEntry st.orders k hne]
        exact h

lemma snapEntries_frozen (l : List ZOrder) (st : LoopState) (k : String)
    (h : k ∈ st.seen) :
    (snapEntries l st).1.orders.lookup k = st.orders.lookup k := by
  induction l generalizing st with
  | nil => simp [snapEntries]
  | cons ho t ih =>
      by_cases hs : ho.order_id ∈ st.seen
      · simp only [snapEntries, if_pos hs]
        exact ih st h
      · simp only [snapEntries, if_neg hs]
        have hne : k ≠ ho.order_id := fun hkk => hs (hkk ▸ h)
        rw [ih _ (mem_addSeen_of_mem _ _ _ h)]
        exact lookup_dictInsert_ne ho.order_id preStartEntry st.orders k hne

lemma snapEntries_writes (l : List ZOrder) (st : LoopState) (o : ZOrder)
    (ho : o ∈ l) (hno : o.order_id ∉ st.seen) :
    (snapEntries l st).1.orders.lookup o.order_id = some preStartEntry := by
  induction l generalizing st with
  | nil => simp at ho
  | cons h' t ih =>
      rcases List.mem_cons.mp ho with rfl | hmem
      · simp only [snapEntries, if_neg hno]
        rw [snapEntries_frozen t _ o.order_id (self_mem_addSeen _ _)]
        exact lookup_dictInsert_self o.order_id preStartEntry st.orders
      · by_cases hs : h'.order_id ∈ st.seen
        · simp only [snapEntries, if_pos hs]
          exact ih st hmem hno
        · simp only [snapEntries, if_neg hs]
          by_cases heq : o.order_id = h'.order_id
          · rw [heq]
            rw [snapEntries_frozen t _ h'.order_id (self_mem_addSeen _ _)]
            exact lookup_dictInsert_self h'.order_id preStartEntry st.orders
          · refine ih _ hmem ?_
            rw [mem_addSeen]
            rintro (hc | hc)
            · exact heq hc
            · exact hno hc

lemma snapEntries_started (l : List ZOrder) (st : LoopState) :
    (snapEntries l st).1.started = st.started := by
  induction l generalizing st with
  | nil => simp [snapEntries]
  | cons ho t ih =>
      by_cases hs : ho.order_id ∈ st.seen
      · simp only [snapEntries, if_pos hs]
        exact ih st
      · simp only [snapEntries, if_neg hs]
        exact ih _

lemma snapEntries_events (l : List ZOrder) (st : LoopState) :
    ∀ e ∈ (snapEntries l st).2, ∃ id, e = Ev.wentry id preStartEntry := by
  induction l generalizing st with
  | nil => simp [snapEntries]
  | cons ho t ih =>
      by_cases hs : ho.order_id ∈ st.seen
      · simp only [snapEntries, if_pos hs]
        exact ih st
      · simp only [snapEntries, if_neg hs]
        intro e he
        rcases List.mem_cons.mp he with rfl | hmem
        · exact ⟨ho.order_id, rfl⟩
        · exact ih _ e hmem

lemma handleOrder_seen (cfg : Cfg) (xm : ResolveEnv) (env : OrderEnv) (orders : List ZOrder)
    (o : ZOrder) (st : LoopState) (h : o.order_id ∈ st.seen) :
    handleOrder cfg xm env orders o st = (st, [], Ctl.next) := by
  simp [handleOrder, h]

lemma handleOrder_not_complete (cfg : Cfg) (xm : ResolveEnv) (env : OrderEnv)
    (orders : List ZOrder) (o : ZOrder) (st : LoopState)
    (h : o.order_id ∉ st.seen) (h2 : pyUpper o.status ≠ "COMPLETE") :
    handleOrder cfg xm env orders o st = (st, [], Ctl.next) := by
  simp [handleOrder, h, h2]

lemma handleOrder_snapshot (cfg : Cfg) (xm : ResolveEnv) (env : OrderEnv)
    (orders : List ZOrder) (o : ZOrder) (st : LoopState)
    (h : o.order_id ∉ st.seen) (h2 : pyUpper o.status = "COMPLETE")
    (h3 : st.started = false) :
    handleOrder cfg xm env orders o st = snapshotPass orders st := by
  simp [handleOrder, h, h2, h3]

lemma handleOrder_ts_exn (cfg : Cfg) (xm : ResolveEnv) (env : OrderEnv)
    (orders : List ZOrder) (o : ZOrder) (st : LoopState)
    (h : o.order_id ∉ st.seen) (h2 : pyUpper o.status = "COMPLETE")
    (h3 : st.started = true) (h4 : o.order_dt = some none) :
    handleOrder cfg xm env orders o st =
      ({ st with seen := addSeen st.seen o.order_id }, [], Ctl.next) := by
  simp [handleOrder, h, h2, h3, h4]

lemma handleOrder_ts_skip (cfg : Cfg) (xm : ResolveEnv) (env : OrderEnv)
    (orders : List ZOrder) (o : ZOrder) (st : LoopState) (t : Int)
    (h : o.order_id ∉ st.seen) (h2 : pyUpper o.status = "COMPLETE")
    (h3 : st.started = true) (h4 : o.order_dt = some (some t)) (h5 : t < cfg.startLocal) :
    handleOrder cfg xm env orders o st =
      ({ st with orders := dictInsert o.order_id preStartEntry st.orders,
                 seen := addSeen st.seen o.order_id },
       [Ev.wentry o.order_id preStartEntry], Ctl.next) := by
  simp [handleOrder, h, h2, h3, h4, h5]

lemma handleOrder_ts_ok (cfg : Cfg) (xm : ResolveEnv) (env : OrderEnv)
    (orders : List ZOrder) (o : ZOrder) (st : LoopState) (t : Int)
    (h : o.order_id ∉ st.seen) (h2 : pyUpper o.status = "COMPLETE")
    (h3 : st.started = true) (h4 : o.order_dt = some (some t)) (h5 : ¬t < cfg.startLocal) :
    handleOrder cfg xm env orders o st = handleAfterTs cfg xm env o st := by
  simp [handleOrder, h, h2, h3, h4, h5]

lemma handleOrder_no_ts (cfg : Cfg) (xm : ResolveEnv) (env : OrderEnv)
    (orders : List ZOrder) (o : ZOrder) (st : LoopState)
    (h : o.order_id ∉ st.seen) (h2 : pyUpper o.status = "COMPLETE")
    (h3 : st.started = true) (h4 : o.order_dt = none) :
    handleOrder cfg xm env orders o st = handleAfterTs cfg xm env o st := by
  simp [handleOrder, h, h2, h3, h4]

lemma handleAfterTs_resolve_none (cfg : Cfg) (xm : ResolveEnv) (env : OrderEnv)
    (o : ZOrder) (st : LoopState)
    (h : resolve_5p_instrument xm o.exchange o.tradingsymbol = none) :
    handleAfterTs cfg xm env o st =
      ({ st with seen := addSeen st.seen o.order_id }, [], Ctl.next) := by
  simp [handleAfterTs, h]

lemma handleAfterTs_quote_none (cfg : Cfg) (xm : ResolveEnv) (env : OrderEnv)
    (o : ZOrder) (st : LoopState) (i : Int)
    (h : resolve_5p_instrument xm o.exchange o.tradingsymbol = some i)
    (hq : (if pyUpper o.transaction_type = "BUY" then env.askPrice else env.bidPrice) = none) :
    handleAfterTs cfg xm env o st =
      ({ st with seen := addSeen st.seen o.order_id }, [], Ctl.next) := by
  simp [handleAfterTs, h, hq]

lemma handleAfterTs_success (cfg : Cfg) (xm : ResolveEnv) (env : OrderEnv)
    (o : ZOrder) (st : LoopState) (i : Int) (pr : ℚ) (appId : Option Int)
    (h : resolve_5p_instrument xm o.exchange o.tradingsymbol = some i)
    (hq : (if pyUpper o.transaction_type = "BUY" then env.askPrice else env.bidPrice) = some pr)
    (hp : env.placeResp = PlaceResp.success appId) :
    handleAfterTs cfg xm env o st =
      ({ st with
          orders := dictInsert o.order_id
            (LedgerEntry.mapped appId o.tradingsymbol (pyUpper o.transaction_type)
              (qtyOf o) (max 1 (qtyOf o * cfg.multiplier))) st.orders,
          seen := addSeen st.seen o.order_id },
       [Ev.place (max 1 (qtyOf o * cfg.multiplier))
          (adjustPrice (pyUpper o.transaction_type) pr) ("Z2F-" ++ o.order_id) i
          (pyUpper o.transaction_type),
        Ev.wentry o.order_id
          (LedgerEntry.mapped appId o.tradingsymbol (pyUpper o.transaction_type)
            (qtyOf o) (max 1 (qtyOf o * cfg.multiplier))),
        Ev.save], Ctl.next) := by
  simp [handleAfterTs, h, hq, hp]

lemma handleAfterTs_place_failure (cfg : Cfg) (xm : ResolveEnv) (env : OrderEnv)
    (o : ZOrder) (st : LoopState) (i : Int) (pr : ℚ)
    (h : resolve_5p_instrument xm o.exchange o.tradingsymbol = some i)
    (hq : (if pyUpper o.transaction_type = "BUY" then env.askPrice else env.bidPrice) = some pr)
    (hp : env.placeResp = PlaceResp.failure) :
    handleAfterTs cfg xm env o st =
      ({ st with seen := addSeen st.seen o.order_id },
       [Ev.place (max 1 (qtyOf o * cfg.multiplier))
          (adjustPrice (pyUpper o.transaction_type) pr) ("Z2F-" ++ o.order_id) i
          (pyUpper o.transaction_type)], Ctl.next) := by
  simp [handleAfterTs, h, hq, hp]

lemma handleAfterTs_place_exn (cfg : Cfg) (xm : ResolveEnv) (env : OrderEnv)
    (o : ZOrder) (st : LoopState) (i : Int) (pr : ℚ)
    (h : resolve_5p_instrument xm o.exchange o.tradingsymbol = some i)
    (hq : (if pyUpper o.transaction_type = "BUY" then env.askPrice else env.bidPrice) = some pr)
    (hp : env.placeResp = PlaceResp.exn) :
    handleAfterTs cfg xm env o st =
      ({ st with seen := addSeen st.seen o.order_id },
       [Ev.place (max 1 (qtyOf o * cfg.multiplier))
          (adjustPrice (pyUpper o.transaction_type) pr) ("Z2F-" ++ o.order_id) i
          (pyUpper o.transaction_type)], Ctl.next) := by
  simp [handleAfterTs, h, hq, hp]

lemma placeCount_cons (e : Ev) (t : List Ev) :
    placeCount (e :: t) = (if isPlaceEv e = true then 1 else 0) + placeCount t := by
  unfold placeCount
  rw [List.filter_cons]
  by_cases h : isPlaceEv e <;> simp [h, Nat.add_comm]

lemma placeCount_append (a b : List Ev) :
    placeCount (a ++ b) = placeCount a + placeCount b := by
  unfold placeCount
  rw [List.filter_append, List.length_append]

lemma placeCount_zero_of (evs : List Ev) (h : ∀ e ∈ evs, isPlaceEv e = false) :
    placeCount evs = 0 := by
  unfold placeCount
  rw [List.length_eq_zero, List.filter_eq_nil]
  intro e he
  simp [h e he]

lemma snapshotPass_fst (orders : List ZOrder) (st : LoopState) :
    (snapshotPass orders st).1 = (snapEntries orders { st with started := true }).1 := rfl

lemma snapshotPass_events (orders : List ZOrder) (st : LoopState) :
    (snapshotPass orders st).2.1 =
      Ev.wstart :: Ev.save :: ((snapEntries orders { st with started := true }).2 ++ [Ev.save]) := rfl

lemma placeCount_snapshotPass (orders : List ZOrder) (st : LoopState) :
    placeCount (snapshotPass orders st).2.1 = 0 := by
  have h1 : placeCount (snapEntries orders { st with started := true }).2 = 0 := by
    apply placeCount_zero_of
    intro e he
    obtain ⟨id, rfl⟩ := snapEntries_events _ _ e he
    rfl
  rw [snapshotPass_events, placeCount_cons, placeCount_cons, placeCount_append, h1]
  rfl

/-- Exhaustive description of the per-order handler's outcomes: a pure
no-op; the snapshot pass; the unsaved pre-start skip write; a mark-seen-only
skip; a placement attempt that only marks seen; or a successful placement
that writes the mapping and saves. -/
lemma handleOrder_cases (cfg : Cfg) (xm : ResolveEnv) (env : OrderEnv) (orders : List ZOrder)
    (o : ZOrder) (st : LoopState) :
    handleOrder cfg xm env orders o st = (st, [], Ctl.next) ∨
    (o.order_id ∉ st.seen ∧ st.started = false ∧
      handleOrder cfg xm env orders o st = snapshotPass orders st) ∨
    (o.order_id ∉ st.seen ∧
      handleOrder cfg xm env orders o st =
        ({ st with orders := dictInsert o.order_id preStartEntry st.orders,
                   seen := addSeen st.seen o.order_id },
         [Ev.wentry o.order_id preStartEntry], Ctl.next)) ∨
    (o.order_id ∉ st.seen ∧
      handleOrder cfg xm env orders o st =
        ({ st with seen := addSeen st.seen o.order_id }, [], Ctl.next)) ∨
    (o.order_id ∉ st.seen ∧ ∃ pl, isPlaceEv pl = true ∧
      handleOrder cfg xm env orders o st =
        ({ st with seen := addSeen st.seen o.order_id }, [pl], Ctl.next)) ∨
    (o.order_id ∉ st.seen ∧ ∃ entry pl, isPlaceEv pl = true ∧
      handleOrder cfg xm env orders o st =
        ({ st with orders := dictInsert o.order_id entry st.orders,
                   seen := addSeen st.seen o.order_id },
         [pl, Ev.wentry o.order_id entry, Ev.save], Ctl.next)) := by
  by_cases h1 : o.order_id ∈ st.seen
  · exact Or.inl (handleOrder_seen cfg xm env orders o st h1)
  by_cases h2 : pyUpper o.status = "COMPLETE"
  case neg => exact Or.inl (handleOrder_not_complete cfg xm env orders o st h1 h2)
  by_cases h3 : st.started = false
  case pos =>
      exact Or.inr (Or.inl ⟨h1, h3, handleOrder_snapshot cfg xm env orders o st h1 h2 h3⟩)
  case neg =>
      have h3 : st.started = true := by
        revert h3
        cases st.started <;> simp
      have hmain : handleOrder cfg xm env orders o st = handleAfterTs cfg xm env o st ∨
          handleOrder cfg xm env orders o st =
            ({ st with seen := addSeen st.seen o.order_id }, [], Ctl.next) ∨
          handleOrder cfg xm env orders o st =
            ({ st with orders := dictInsert o.order_id preStartEntry st.orders,
                       seen := addSeen st.seen o.order_id },
             [Ev.wentry o.order_id preStartEntry], Ctl.next) := by
        rcases h4 : o.order_dt with _ | ht
        · exact Or.inl (handleOrder_no_ts cfg xm env orders o st h1 h2 h3 h4)
        · rcases ht with _ | t
          · exact Or.inr (Or.inl (handleOrder_ts_exn cfg xm env orders o st h1 h2 h3 h4))
          · by_cases h5 : t < cfg.startLocal
            · exact Or.inr (Or.inr (handleOrder_ts_skip cfg xm env orders o st t h1 h2 h3 h4 h5))
            · exact Or.inl (handleOrder_ts_ok cfg xm env orders o st t h1 h2 h3 h4 h5)
      rcases hmain with hmain | hmain | hmain
      · rcases hres : resolve_5p_instrument xm o.exchange o.tradingsymbol with _ | i
        · rw [hmain, handleAfterTs_resolve_none cfg xm env o st hres]
          exact Or.inr (Or.inr (Or.inr (Or.inl ⟨h1, rfl⟩)))
        · rcases hq : (if pyUpper o.transaction_type = "BUY" then env.askPrice
              else env.bidPrice) with _ | pr
          · rw [hmain, handleAfterTs_quote_none cfg xm env o st i hres hq]
            exact Or.inr (Or.inr (Or.inr (Or.inl ⟨h1, rfl⟩)))
          · cases hp : env.placeResp with
            | success appId =>
                rw [hmain, handleAfterTs_success cfg xm env o st i pr appId hres hq hp]
                refine Or.inr (Or.inr (Or.inr (Or.inr (Or.inr ⟨h1, _, _, ?_, rfl⟩))))
                rfl
            | failure =>
                rw [hmain, handleAfterTs_place_failure cfg xm env o st i pr hres hq hp]
                refine Or.inr (Or.inr (Or.inr (Or.inr (Or.inl ⟨h1, _, ?_, rfl⟩))))
                rfl
            | exn =>
                rw [hmain, handleAfterTs_place_exn cfg xm env o st i pr hres hq hp]
                refine Or.inr (Or.inr (Or.inr (Or.inr (Or.inl ⟨h1, _, ?_, rfl⟩))))
                rfl
      · exact Or.inr (Or.inr (Or.inr (Or.inl ⟨h1, hmain⟩)))
      · exact Or.inr (Or.inr (Or.inl ⟨h1, hmain⟩))

lemma handleOrder_preserves (cfg : Cfg) (xm : ResolveEnv) (env : OrderEnv)
    (orders : List ZOrder) (o : ZOrder) (st : LoopState) (hInv : LoopInv st)
    (k : String) (e : LedgerEntry) (h : st.orders.lookup k = some e) :
    (handleOrder cfg xm env orders o st).1.orders.lookup k = some e := by
  rcases handleOrder_cases cfg xm env orders o st with
    heq | ⟨hn, hb, heq⟩ | ⟨hn, heq⟩ | ⟨hn, heq⟩ | ⟨hn, pl, hpl, heq⟩ | ⟨hn, entry, pl, hpl, heq⟩
  · rw [heq]; exact h
  · rw [heq, snapshotPass_fst]
    exact snapEntries_preserves orders _ (LoopInv_started st hInv true) k e h
  · rw [heq]
    have hk : k ≠ o.order_id := fun hkk => hn (hkk ▸ hInv.1 k e h)
    rw [lookup_dictInsert_ne o.order_id preStartEntry st.orders k hk]
    exact h
  · rw [heq]; exact h
  · rw [heq]; exact h
  · rw [heq]
    have hk : k ≠ o.order_id := fun hkk => hn (hkk ▸ hInv.1 k e h)
    rw [lookup_dictInsert_ne o.order_id entry st.orders k hk]
    exact h

lemma handleOrder_inv (cfg : Cfg) (xm : ResolveEnv) (env : OrderEnv)
    (orders : List ZOrder) (o : ZOrder) (st : LoopState) (hInv : LoopInv st) :
    LoopInv (handleOrder cfg xm env orders o st).1 := by
  rcases handleOrder_cases cfg xm env orders o st with
    heq | ⟨hn, hb, heq⟩ | ⟨hn, heq⟩ | ⟨hn, heq⟩ | ⟨hn, pl, hpl, heq⟩ | ⟨hn, entry, pl, hpl, heq⟩
  · rw [heq]; exact hInv
  · rw [heq, snapshotPass_fst]
    exact snapEntries_inv orders _ (LoopInv_started st hInv true)
  · rw [heq]
    exact LoopInv_insert st hInv o.order_id preStartEntry
  · rw [heq]
    exact LoopInv_addSeen st hInv o.order_id
  · rw [heq]
    exact LoopInv_addSeen st hInv o.order_id
  · rw [heq]
    exact LoopInv_insert st hInv o.order_id entry

lemma handleOrder_seen_or_noop (cfg : Cfg) (xm : ResolveEnv) (env : OrderEnv)
    (orders : List ZOrder) (o : ZOrder) (st : LoopState) (hmem : o ∈ orders) :
    o.order_id ∈ (handleOrder cfg xm env orders o st).1.seen ∨
    handleOrder cfg xm env orders o st = (st, [], Ctl.next) := by
  rcases handleOrder_cases cfg xm env orders o st with
    heq | ⟨hn, hb, heq⟩ | ⟨hn, heq⟩ | ⟨hn, heq⟩ | ⟨hn, pl, hpl, heq⟩ | ⟨hn, entry, pl, hpl, heq⟩
  · exact Or.inr heq
  · left
    rw [heq, snapshotPass_fst]
    exact snapEntries_covers orders _ o hmem
  · left; rw [heq]; exact self_mem_addSeen st.seen o.order_id
  · left; rw [heq]; exact self_mem_addSeen st.seen o.order_id
  · left; rw [heq]; exact self_mem_addSeen st.seen o.order_id
  · left; rw [heq]; exact self_mem_addSeen st.seen o.order_id

lemma handleOrder_second_noop (cfg : Cfg) (xm : ResolveEnv) (env : OrderEnv)
    (orders : List ZOrder) (o : ZOrder) (st : LoopState) (hmem : o ∈ orders) :
    handleOrder cfg xm env orders o (handleOrder cfg xm env orders o st).1 =
      ((handleOrder cfg xm env orders o st).1, [], Ctl.next) := by
  rcases handleOrder_seen_or_noop cfg xm env orders o st hmem with hseen | hnoop
  · exact handleOrder_seen cfg xm env orders o _ hseen
  · rw [hnoop]
    exact hnoop

lemma handleOrder_place_le_one (cfg : Cfg) (xm : ResolveEnv) (env : OrderEnv)
    (orders : List ZOrder) (o : ZOrder) (st : LoopState) :
    placeCount (handleOrder cfg xm env orders o st).2.1 ≤ 1 := by
  rcases handleOrder_cases cfg xm env orders o st with
    heq | ⟨hn, hb, heq⟩ | ⟨hn, heq⟩ | ⟨hn, heq⟩ | ⟨hn, pl, hpl, heq⟩ | ⟨hn, entry, pl, hpl, heq⟩
  · rw [heq]; exact Nat.zero_le 1
  · rw [heq, placeCount_snapshotPass]
    exact Nat.zero_le 1
  · rw [heq]
    exact Nat.le_of_eq rfl |>.trans (Nat.zero_le 1)
  · rw [heq]; exact Nat.zero_le 1
  · rw [heq]
    show placeCount [pl] ≤ 1
    rw [placeCount_cons, hpl]
    simp [placeCount]
  · rw [heq]
    show placeCount [pl, Ev.wentry o.order_id entry, Ev.save] ≤ 1
    rw [placeCount_cons, hpl, placeCount_cons, placeCount_cons]
    simp [isPlaceEv, placeCount]

/-- Concrete broker environments and orders used by the concrete runs. -/
def xmOK : ResolveEnv :=
  ⟨fun _ _ _ => none, fun _ _ _ _ _ _ => some [111]⟩

def xmFail : ResolveEnv :=
  ⟨fun _ _ _ => none, fun _ _ _ _ _ _ => none⟩

def envBuyOK : OrderEnv := ⟨some 10, some 10, PlaceResp.success (some 555)⟩

def cfgM1 : Cfg := ⟨1, 0⟩

/-- Steady state: watermark set, empty ledger, nothing seen. -/
def stReady : LoopState := ⟨[], true, []⟩

/-- First-run state: watermark unset, empty ledger, nothing seen. -/
def stFresh : LoopState := ⟨[], false, []⟩

/-- A completed source order whose symbol decodes and resolves. -/
def oGood : ZOrder :=
  ⟨"7", "COMPLETE", none, "NFO", "NIFTY25N0425800PE", some 1, none, "BUY"⟩

lemma LoopInv_nil (b : Bool) (seen : List String) :
    LoopInv ⟨[], b, seen⟩ := by
  constructor
  · intro k e h
    simp [List.lookup] at h
  · simp

/-- C1: once a ledger entry exists for an order id it is never overwritten
by per-order handling; invoking the handling a second time with the same
order is a no-op (same state, no events); at most one order placement is
ever attempted across the two invocations; and whenever the id has a ledger
entry it is exactly one entry — all under the startup invariant that `seen`
contains every ledger key. -/
theorem claim_C1_at_most_once (cfg : Cfg) (xm : ResolveEnv) (env : OrderEnv)
    (orders : List ZOrder) (o : ZOrder) (st : LoopState)
    (hInv : LoopInv st) (hmem : o ∈ orders) :
    (∀ k e, st.orders.lookup k = some e →
      (handleOrder cfg xm env orders o st).1.orders.lookup k = some e) ∧
    handleOrder cfg xm env orders o (handleOrder cfg xm env orders o st).1 =
      ((handleOrder cfg xm env orders o st).1, [], Ctl.next) ∧
    placeCount (handleOrder cfg xm env orders o st).2.1 +
      placeCount (handleOrder cfg xm env orders o
        (handleOrder cfg xm env orders o st).1).2.1 ≤ 1 ∧
    (∀ e, (handleOrder cfg xm env orders o st).1.orders.lookup o.order_id = some e →
      countKey (handleOrder cfg xm env orders o st).1.orders o.order_id = 1) := by
  refine ⟨handleOrder_preserves cfg xm env orders o st hInv,
          handleOrder_second_noop cfg xm env orders o st hmem, ?_, ?_⟩
  · rw [handleOrder_second_noop cfg xm env orders o st hmem]
    have h0 : placeCount (((handleOrder cfg xm env orders o st).1, ([] : List Ev),
        Ctl.next)).2.1 = 0 := rfl
    rw [h0, Nat.add_zero]
    exact handleOrder_place_le_one cfg xm env orders o st
  · intro e he
    have hinv1 := handleOrder_inv cfg xm env orders o st hInv
    exact countKey_eq_one_of_nodup _ _ hinv1.2 (lookup_some_mem_keys _ _ _ he)

/-- C1 witness: a concrete completed order in an empty started state; the
invariant and membership hypotheses are discharged concretely. -/
theorem claim_C1_witness :
    handleOrder cfgM1 xmOK envBuyOK [oGood] oGood
        (handleOrder cfgM1 xmOK envBuyOK [oGood] oGood stReady).1 =
      ((handleOrder cfgM1 xmOK envBuyOK [oGood] oGood stReady).1, [], Ctl.next) ∧
    placeCount (handleOrder cfgM1 xmOK envBuyOK [oGood] oGood stReady).2.1 +
      placeCount (handleOrder cfgM1 xmOK envBuyOK [oGood] oGood
        (handleOrder cfgM1 xmOK envBuyOK [oGood] oGood stReady).1).2.1 ≤ 1 :=
  ⟨(claim_C1_at_most_once cfgM1 xmOK envBuyOK [oGood] oGood stReady
      (LoopInv_nil true []) (by simp)).2.1,
   (claim_C1_at_most_once cfgM1 xmOK envBuyOK [oGood] oGood stReady
      (LoopInv_nil true []) (by simp)).2.2.1⟩

/-- A completed order whose symbol fails to decode (unknown weekly month
code `X`), so instrument resolution returns `None`. -/
def oBadSym : ZOrder :=
  ⟨"42", "COMPLETE", none, "NFO", "NIFTY25X0425800PE", some 1, none, "BUY"⟩

/-- C2 counterexample: on a resolution failure the Mirror Loop writes NO
ledger entry — it only logs and adds the id to the in-memory `seen` set —
refuting "writes exactly one skipped ledger entry with a reason". -/
theorem claim_C2_counterexample :
    (handleOrder cfgM1 xmOK envBuyOK [oBadSym] oBadSym stReady).1.orders = [] ∧
    (handleOrder cfgM1 xmOK envBuyOK [oBadSym] oBadSym stReady).1.seen = ["42"] ∧
    (handleOrder cfgM1 xmOK envBuyOK [oBadSym] oBadSym stReady).2.2 = Ctl.next := by
  decide

lemma processOrders_cons_next (cfg : Cfg) (xm : ResolveEnv) (envs : String → OrderEnv)
    (orders : List ZOrder) (o : ZOrder) (rest : List ZOrder) (st : LoopState)
    (h : (handleOrder cfg xm (envs o.order_id) orders o st).2.2 = Ctl.next) :
    processOrders cfg xm envs orders (o :: rest) st =
      ((processOrders cfg xm envs orders rest
          (handleOrder cfg xm (envs o.order_id) orders o st).1).1,
       (handleOrder cfg xm (envs o.order_id) orders o st).2.1 ++
         (processOrders cfg xm envs orders rest
           (handleOrder cfg xm (envs o.order_id) orders o st).1).2) := by
  simp only [processOrders]
  rw [h]

lemma processOrders_cons_brk (cfg : Cfg) (xm : ResolveEnv) (envs : String → OrderEnv)
    (orders : List ZOrder) (o : ZOrder) (rest : List ZOrder) (st : LoopState)
    (h : (handleOrder cfg xm (envs o.order_id) orders o st).2.2 = Ctl.brk) :
    processOrders cfg xm envs orders (o :: rest) st =
      ((handleOrder cfg xm (envs o.order_id) orders o st).1,
       (handleOrder cfg xm (envs o.order_id) orders o st).2.1) := by
  simp only [processOrders]
  rw [h]

/-- C2 amended: every per-order failure (resolution `None`, missing quote,
rejected placement, placement exception) is absorbed locally: the loop
state keeps its ledger and watermark unchanged, the order id is added to
`seen` (so the order is never retried), no ledger write and no save occur,
control falls through to the next order, and the remaining batch is
processed from that state.  (No skipped ledger entry is written, contrary
to the claim as stated.) -/
theorem claim_C2_failure_no_ledger_write (cfg : Cfg) (xm : ResolveEnv)
    (envs : String → OrderEnv) (orders rest : List ZOrder) (o : ZOrder) (st : LoopState)
    (h1 : o.order_id ∉ st.seen) (h2 : pyUpper o.status = "COMPLETE")
    (h3 : st.started = true) (h4 : o.order_dt = none)
    (hfail : resolve_5p_instrument xm o.exchange o.tradingsymbol = none ∨
      (∃ i, resolve_5p_instrument xm o.exchange o.tradingsymbol = some i ∧
        (if pyUpper o.transaction_type = "BUY" then (envs o.order_id).askPrice
         else (envs o.order_id).bidPrice) = none) ∨
      (∃ i pr, resolve_5p_instrument xm o.exchange o.tradingsymbol = some i ∧
        (if pyUpper o.transaction_type = "BUY" then (envs o.order_id).askPrice
         else (envs o.order_id).bidPrice) = some pr ∧
        ((envs o.order_id).placeResp = PlaceResp.failure ∨
         (envs o.order_id).placeResp = PlaceResp.exn))) :
    (handleOrder cfg xm (envs o.order_id) orders o st).1.orders = st.orders ∧
    (handleOrder cfg xm (envs o.order_id) orders o st).1.started = st.started ∧
    (handleOrder cfg xm (envs o.order_id) orders o st).1.seen = addSeen st.seen o.order_id ∧
    (∀ e ∈ (handleOrder cfg xm (envs o.order_id) orders o st).2.1,
      isWriteEv e = false ∧ isSaveEv e = false) ∧
    (handleOrder cfg xm (envs o.order_id) orders o st).2.2 = Ctl.next ∧
    processOrders cfg xm envs orders (o :: rest) st =
      ((processOrders cfg xm envs orders rest
          (handleOrder cfg xm (envs o.order_id) orders o st).1).1,
       (handleOrder cfg xm (envs o.order_id) orders o st).2.1 ++
         (processOrders cfg xm envs orders rest
           (handleOrder cfg xm (envs o.order_id) orders o st).1).2) := by
  have hmain : handleOrder cfg xm (envs o.order_id) orders o st =
      handleAfterTs cfg xm (envs o.order_id) o st :=
    handleOrder_no_ts cfg xm (envs o.order_id) orders o st h1 h2 h3 h4
  have hres : handleOrder cfg xm (envs o.order_id) orders o st =
      ({ st with seen := addSeen st.seen o.order_id }, [], Ctl.next) ∨
      ∃ pl, isPlaceEv pl = true ∧ handleOrder cfg xm (envs o.order_id) orders o st =
        ({ st with seen := addSeen st.seen o.order_id }, [pl], Ctl.next) := by
    rcases hfail with hr | ⟨i, hr, hq⟩ | ⟨i, pr, hr, hq, hp⟩
    · exact Or.inl (hmain.trans (handleAfterTs_resolve_none cfg xm (envs o.order_id) o st hr))
    · exact Or.inl (hmain.trans (handleAfterTs_quote_none cfg xm (envs o.order_id) o st i hr hq))
    · rcases hp with hp | hp
      · refine Or.inr ⟨_, ?_, hmain.trans
          (handleAfterTs_place_failure cfg xm (envs o.order_id) o st i pr hr hq hp)⟩
        rfl
      · refine Or.inr ⟨_, ?_, hmain.trans
          (handleAfterTs_place_exn cfg xm (envs o.order_id) o st i pr hr hq hp)⟩
        rfl
  rcases hres with heq | ⟨pl, hpl, heq⟩
  · refine ⟨by rw [heq], by rw [heq], by rw [heq], ?_, by rw [heq], ?_⟩
    · rw [heq]
      intro e he
      simp at he
    · exact processOrders_cons_next cfg xm envs orders o rest st (by rw [heq])
  · refine ⟨by rw [heq], by rw [heq], by rw [heq], ?_, by rw [heq], ?_⟩
    · rw [heq]
      intro e he
      have : e = pl := by simpa using he
      subst this
      cases e with
      | place q p u i s => exact ⟨rfl, rfl⟩
      | wentry id en => simp [isPlaceEv] at hpl
      | wstart => simp [isPlaceEv] at hpl
      | save => simp [isPlaceEv] at hpl
    · exact processOrders_cons_next cfg xm envs orders o rest st (by rw [heq])

/-- C2 witness: a decode failure on order 42, with a healthy order as the
remainder of the batch; all hypotheses discharged concretely. -/
theorem claim_C2_witness :
    (handleOrder cfgM1 xmOK ((fun _ => envBuyOK) oBadSym.order_id) [oBadSym, oGood]
        oBadSym stReady).1.orders = stReady.orders ∧
    processOrders cfgM1 xmOK (fun _ => envBuyOK) [oBadSym, oGood] (oBadSym :: [oGood]) stReady =
      ((processOrders cfgM1 xmOK (fun _ => envBuyOK) [oBadSym, oGood] [oGood]
          (handleOrder cfgM1 xmOK ((fun _ => envBuyOK) oBadSym.order_id) [oBadSym, oGood]
            oBadSym stReady).1).1,
       (handleOrder cfgM1 xmOK ((fun _ => envBuyOK) oBadSym.order_id) [oBadSym, oGood]
          oBadSym stReady).2.1 ++
         (processOrders cfgM1 xmOK (fun _ => envBuyOK) [oBadSym, oGood] [oGood]
           (handleOrder cfgM1 xmOK ((fun _ => envBuyOK) oBadSym.order_id) [oBadSym, oGood]
             oBadSym stReady).1).2) :=
  ⟨(claim_C2_failure_no_ledger_write cfgM1 xmOK (fun _ => envBuyOK) [oBadSym, oGood] [oGood]
      oBadSym stReady (by simp [stReady]) (by decide) rfl rfl (Or.inl (by decide))).1,
   (claim_C2_failure_no_ledger_write cfgM1 xmOK (fun _ => envBuyOK) [oBadSym, oGood] [oGood]
      oBadSym stReady (by simp [stReady]) (by decide) rfl rfl (Or.inl (by decide))).2.2.2.2.2⟩

lemma handleOrder_started_true (cfg : Cfg) (xm : ResolveEnv) (env : OrderEnv)
    (orders : List ZOrder) (o : ZOrder) (st : LoopState) (h : st.started = true) :
    (handleOrder cfg xm env orders o st).1.started = true ∧
    ∀ e ∈ (handleOrder cfg xm env orders o st).2.1, isStartEv e = false := by
  rcases handleOrder_cases cfg xm env orders o st with
    heq | ⟨hn, hb, heq⟩ | ⟨hn, heq⟩ | ⟨hn, heq⟩ | ⟨hn, pl, hpl, heq⟩ | ⟨hn, entry, pl, hpl, heq⟩
  · rw [heq]
    exact ⟨h, by intro e he; simp at he⟩
  · rw [hb] at h
    cases h
  · rw [heq]
    refine ⟨h, ?_⟩
    intro e he
    have : e = Ev.wentry o.order_id preStartEntry := by simpa using he
    subst this
    rfl
  · rw [heq]
    exact ⟨h, by intro e he; simp at he⟩
  · rw [heq]
    refine ⟨h, ?_⟩
    intro e he
    have : e = pl := by simpa using he
    subst this
    cases e with
    | place q p u i s => rfl
    | wentry id en => simp [isPlaceEv] at hpl
    | wstart => simp [isPlaceEv] at hpl
    | save => simp [isPlaceEv] at hpl
  · rw [heq]
    refine ⟨h, ?_⟩
    intro e he
    rcases List.mem_cons.mp he with rfl | he2
    · cases e with
      | place q p u i s => rfl
      | wentry id en => simp [isPlaceEv] at hpl
      | wstart => simp [isPlaceEv] at hpl
      | save => simp [isPlaceEv] at hpl
    · rcases List.mem_cons.mp he2 with rfl | he3
      · rfl
      · have : e = Ev.save := by simpa using he3
        subst this
        rfl

lemma processOrders_started_true (cfg : Cfg) (xm : ResolveEnv) (envs : String → OrderEnv)
    (orders : List ZOrder) :
    ∀ (remaining : List ZOrder) (st : LoopState), st.started = true →
      (processOrders cfg xm envs orders remaining st).1.started = true ∧
      (processOrders cfg xm envs orders remaining st).2.filter isStartEv = [] := by
  intro remaining
  induction remaining with
  | nil =>
      intro st h
      exact ⟨h, rfl⟩
  | cons o rest ih =>
      intro st h
      have hh := handleOrder_started_true cfg xm (envs o.order_id) orders o st h
      have hflt : (handleOrder cfg xm (envs o.order_id) orders o st).2.1.filter isStartEv
          = [] := by
        rw [List.filter_eq_nil]
        intro e he
        simp [hh.2 e he]
      cases hctl : (handleOrder cfg xm (envs o.order_id) orders o st).2.2 with
      | brk =>
          rw [processOrders_cons_brk cfg xm envs orders o rest st hctl]
          exact ⟨hh.1, hflt⟩
      | next =>
          rw [processOrders_cons_next cfg xm envs orders o rest st hctl]
          have hrec := ih (handleOrder cfg xm (envs o.order_id) orders o st).1 hh.1
          refine ⟨hrec.1, ?_⟩
          rw [List.filter_append, hflt, hrec.2]
          rfl

lemma processOrders_first_run (cfg : Cfg) (xm : ResolveEnv) (envs : String → OrderEnv)
    (orders : List ZOrder) :
    ∀ (remaining : List ZOrder) (st : LoopState), st.started = false →
      (∃ o ∈ remaining, o.order_id ∉ st.seen ∧ pyUpper o.status = "COMPLETE") →
      processOrders cfg xm envs orders remaining st =
        ((snapshotPass orders st).1, (snapshotPass orders st).2.1) := by
  intro remaining
  induction remaining with
  | nil =>
      intro st h htrig
      rcases htrig with ⟨o, ho, _⟩
      simp at ho
  | cons o rest ih =>
      intro st h htrig
      by_cases hseen : o.order_id ∈ st.seen
      · have hnoop : handleOrder cfg xm (envs o.order_id) orders o st = (st, [], Ctl.next) :=
          handleOrder_seen cfg xm (envs o.order_id) orders o st hseen
        have hctl : (handleOrder cfg xm (envs o.order_id) orders o st).2.2 = Ctl.next := by
          rw [hnoop]
        rw [processOrders_cons_next cfg xm envs orders o rest st hctl, hnoop]
        have htrig' : ∃ o' ∈ rest, o'.order_id ∉ st.seen ∧ pyUpper o'.status = "COMPLETE" := by
          rcases htrig with ⟨o', ho', hc⟩
          rcases List.mem_cons.mp ho' with rfl | hmem
          · exact absurd hseen hc.1
          · exact ⟨o', hmem, hc⟩
        rw [ih st h htrig']
        rfl
      · by_cases hcomp : pyUpper o.status = "COMPLETE"
        · have heq : handleOrder cfg xm (envs o.order_id) orders o st = snapshotPass orders st :=
            handleOrder_snapshot cfg xm (envs o.order_id) orders o st hseen hcomp h
          have hctl : (handleOrder cfg xm (envs o.order_id) orders o st).2.2 = Ctl.brk := by
            rw [heq]
            rfl
          rw [processOrders_cons_brk cfg xm envs orders o rest st hctl, heq]
        · have hnoop : handleOrder cfg xm (envs o.order_id) orders o st = (st, [], Ctl.next) :=
            handleOrder_not_complete cfg xm (envs o.order_id) orders o st hseen hcomp
          have hctl : (handleOrder cfg xm (envs o.order_id) orders o st).2.2 = Ctl.next := by
            rw [hnoop]
          rw [processOrders_cons_next cfg xm envs orders o rest st hctl, hnoop]
          have htrig' : ∃ o' ∈ rest, o'.order_id ∉ st.seen ∧ pyUpper o'.status = "COMPLETE" := by
            rcases htrig with ⟨o', ho', hc⟩
            rcases List.mem_cons.mp ho' with rfl | hmem
            · exact absurd hc.2 hcomp
            · exact ⟨o', hmem, hc⟩
          rw [ih st h htrig']
          rfl

lemma snapshotPass_started_true (orders : List ZOrder) (st : LoopState) :
    (snapshotPass orders st).1.started = true := by
  rw [snapshotPass_fst, snapEntries_started]

lemma snapshotPass_writes (orders : List ZOrder) (st : LoopState) (o : ZOrder)
    (ho : o ∈ orders) (hno : o.order_id ∉ st.seen) :
    (snapshotPass orders st).1.orders.lookup o.order_id = some preStartEntry := by
  rw [snapshotPass_fst]
  exact snapEntries_writes orders _ o ho hno

lemma filter_start_snapshotPass (orders : List ZOrder) (st : LoopState) :
    (snapshotPass orders st).2.1.filter isStartEv = [Ev.wstart] := by
  rw [snapshotPass_events]
  have h1 : (snapEntries orders { st with started := true }).2.filter isStartEv = [] := by
    rw [List.filter_eq_nil]
    intro e he
    obtain ⟨id, rfl⟩ := snapEntries_events _ _ e he
    simp [isStartEv]
  rw [List.filter_cons, List.filter_cons, List.filter_append, h1]
  rfl

/-- A non-COMPLETE source order present during first run. -/
def oOpen : ZOrder := ⟨"1", "OPEN", none, "NFO", "X", none, none, "BUY"⟩

/-- C3 counterexample: with the watermark unset and one (OPEN) order in the
fetched list, the poll pass records nothing and leaves the watermark unset —
the snapshot pass does NOT run merely because the watermark is unset, so
"runs if and only if the watermark is unset" is false on the code. -/
theorem claim_C3_counterexample :
    (processBatch cfgM1 xmOK (fun _ => envBuyOK) [oOpen] stFresh).1.started = false ∧
    (processBatch cfgM1 xmOK (fun _ => envBuyOK) [oOpen] stFresh).1.orders = [] := by
  decide

/-- C3 amended: the snapshot pass runs on the first poll pass that reaches a
not-yet-seen COMPLETE order while the watermark is unset (not merely when
the watermark is unset); when it runs, every order of the fetched list not
already seen is recorded as skipped with reason "opened before start", the
watermark is written exactly once, and zero orders are mirrored.  Once the
watermark is set it is never unset and the snapshot never runs again. -/
theorem claim_C3_snapshot_pass :
    (∀ (cfg : Cfg) (xm : ResolveEnv) (envs : String → OrderEnv) (orders : List ZOrder)
        (st : LoopState),
      st.started = false →
      (∃ o ∈ orders, o.order_id ∉ st.seen ∧ pyUpper o.status = "COMPLETE") →
      (processBatch cfg xm envs orders st).1.started = true ∧
      (∀ o ∈ orders, o.order_id ∉ st.seen →
        (processBatch cfg xm envs orders st).1.orders.lookup o.order_id =
          some preStartEntry) ∧
      placeCount (processBatch cfg xm envs orders st).2 = 0 ∧
      (processBatch cfg xm envs orders st).2.filter isStartEv = [Ev.wstart]) ∧
    (∀ (cfg : Cfg) (xm : ResolveEnv) (envs : String → OrderEnv) (orders : List ZOrder)
        (st : LoopState),
      st.started = true →
      (processBatch cfg xm envs orders st).1.started = true ∧
      (processBatch cfg xm envs orders st).2.filter isStartEv = []) := by
  constructor
  · intro cfg xm envs orders st h htrig
    have hrun := processOrders_first_run cfg xm envs orders orders st h htrig
    unfold processBatch
    rw [hrun]
    refine ⟨snapshotPass_started_true orders st, ?_, ?_, ?_⟩
    · intro o ho hno
      exact snapshotPass_writes orders st o ho hno
    · exact placeCount_snapshotPass orders st
    · exact filter_start_snapshotPass orders st
  · intro cfg xm envs orders st h
    exact processOrders_started_true cfg xm envs orders orders st h

/-- C3 witness: one existing COMPLETE order, unset watermark — after the
pass the order is recorded as skipped and the watermark is set. -/
theorem claim_C3_witness :
    (processBatch cfgM1 xmOK (fun _ => envBuyOK) [oGood] stFresh).1.started = true ∧
    (processBatch cfgM1 xmOK (fun _ => envBuyOK) [oGood] stFresh).1.orders.lookup "7" =
      some preStartEntry ∧
    placeCount (processBatch cfgM1 xmOK (fun _ => envBuyOK) [oGood] stFresh).2 = 0 :=
  have hc := claim_C3_snapshot_pass.1 cfgM1 xmOK (fun _ => envBuyOK) [oGood] stFresh rfl
    ⟨oGood, List.mem_singleton.mpr rfl, by simp [stFresh], by decide⟩
  ⟨hc.1, hc.2.1 oGood (List.mem_singleton.mpr rfl) (by simp [stFresh]), hc.2.2.1⟩

lemma rmTry_ge (z : List (String × Option Int)) (k : String) (v : Int)
    (h : rmTry z k = some v) : 1 ≤ v := by
  unfold rmTry at h
  rcases hl : z.lookup k with _ | ov
  · rw [hl] at h
    simp at h
  · rw [hl] at h
    rcases ov with _ | w
    · simp at h
    · simp at h
      rw [← h]
      exact le_max_left 1 w

lemma readMultiplier_ge (z : List (String × Option Int)) : 1 ≤ readMultiplier z := by
  unfold readMultiplier
  rcases h1 : rmTry z "copytradeqtymultiplier" with _ | v1
  · rcases h2 : rmTry z "copy_trade_qty_multiplier" with _ | v2
    · rcases h3 : rmTry z "multiplier" with _ | v3
      · simp [h1, h2, h3, Option.orElse]
      · simp [h1, h2, h3, Option.orElse]
        exact rmTry_ge z _ _ h3
    · simp [h1, h2, Option.orElse]
      exact rmTry_ge z _ _ h2
  · simp [h1, Option.orElse]
    exact rmTry_ge z _ _ h1

def cfgM3 : Cfg := ⟨3, 0⟩

/-- A completed order with zero filled quantity but an ordered quantity of
2; Python's falsy-`or` chain makes the ordered quantity win. -/
def oZeroFill : ZOrder :=
  ⟨"9", "COMPLETE", none, "NFO", "NIFTY25N0425800PE", some 0, some 2, "BUY"⟩

/-- A completed order with filled quantity 2 and no ordered quantity. -/
def oFill2 : ZOrder :=
  ⟨"8", "COMPLETE", none, "NFO", "NIFTY25N0425800PE", some 2, none, "BUY"⟩

/-- C4 counterexample: with multiplier 1, a COMPLETE order with
`filled_quantity = 0` and `quantity = 2` is mirrored with quantity 2, not
`max(1, 0·1) = 1`: the code's `filled_quantity or quantity or 0` treats a
zero filled quantity as falsy and falls back to the ordered quantity. -/
theorem claim_C4_counterexample :
    firstPlaceQty (handleOrder cfgM1 xmOK envBuyOK [oZeroFill] oZeroFill stReady).2.1 =
      some 2 ∧
    mirroredQty (some 0) (some 2) 1 = 2 ∧
    (2 : Int) ≠ max 1 (0 * 1) := by
  refine ⟨by decide, by decide, by decide⟩

/-- C4 amended: the mirrored quantity is `max(1, q′ · m)` where `q′` is
Python's `filled_quantity or quantity or 0` — the filled quantity when
nonzero, else the ordered quantity when present and nonzero, else 0 — and
`m` is the configured multiplier (default 1, floored to a minimum of 1);
multiplier 3 with filled quantity 2 gives 6, and multiplier 1 with filled
quantity 0 and no usable ordered quantity floors to 1. -/
theorem claim_C4_quantity_scaling :
    (∀ (cfg : Cfg) (xm : ResolveEnv) (env : OrderEnv) (orders : List ZOrder) (o : ZOrder)
        (st : LoopState) (i : Int) (pr : ℚ) (appId : Option Int),
      o.order_id ∉ st.seen → pyUpper o.status = "COMPLETE" → st.started = true →
      o.order_dt = none →
      resolve_5p_instrument xm o.exchange o.tradingsymbol = some i →
      (if pyUpper o.transaction_type = "BUY" then env.askPrice else env.bidPrice) = some pr →
      env.placeResp = PlaceResp.success appId →
      firstPlaceQty (handleOrder cfg xm env orders o st).2.1 =
        some (mirroredQty o.filled_quantity o.quantity cfg.multiplier)) ∧
    mirroredQty (some 2) none 3 = 6 ∧
    mirroredQty (some 0) none 1 = 1 ∧
    (∀ z, 1 ≤ readMultiplier z) ∧
    readMultiplier [] = 1 := by
  refine ⟨?_, by decide, by decide, readMultiplier_ge, by decide⟩
  intro cfg xm env orders o st i pr appId h1 h2 h3 h4 hres hq hp
  rw [handleOrder_no_ts cfg xm env orders o st h1 h2 h3 h4,
      handleAfterTs_success cfg xm env o st i pr appId hres hq hp]
  rfl

/-- C4 witness: the scaling statement applied at multiplier 3 with filled
quantity 2 (giving 6), and the multiplier floor applied at a negative
configured value. -/
theorem claim_C4_witness :
    firstPlaceQty (handleOrder cfgM3 xmOK envBuyOK [oFill2] oFill2 stReady).2.1 =
      some (mirroredQty (some 2) none 3) ∧
    1 ≤ readMultiplier [("multiplier", some (-7))] :=
  ⟨claim_C4_quantity_scaling.1 cfgM3 xmOK envBuyOK [oFill2] oFill2 stReady 111 10 (some 555)
      (by simp [stReady]) (by decide) rfl rfl (by decide) rfl rfl,
   claim_C4_quantity_scaling.2.2.2.1 [("multiplier", some (-7))]⟩

/-- C9 counterexample: the first-run snapshot writes the watermark (saved),
then batches every per-order skip entry and saves only once after the loop —
with two fetched orders, two ledger mutations occur with no save between
them, refuting "the full ledger is synchronously rewritten after every
mutation, never batched". -/
theorem claim_C9_counterexample :
    mutationsBatched (processBatch cfgM1 xmOK (fun _ => envBuyOK)
      [oGood, oFill2] stFresh).2 = true := by
  decide

/-- C9 amended: the ledger is saved immediately after a successful-placement
mapping write (the write and the save are adjacent events); the snapshot
pass saves once right after the watermark write and once after all of its
batched skip entries; and the pre-start timestamp skip writes its ledger
entry with no save at all.  So a crash can lose several unsaved snapshot
entries or a timestamp-skip entry, not merely one in-flight mutation. -/
theorem claim_C9_persistence :
    (∀ (cfg : Cfg) (xm : ResolveEnv) (env : OrderEnv) (orders : List ZOrder) (o : ZOrder)
        (st : LoopState) (i : Int) (pr : ℚ) (appId : Option Int),
      o.order_id ∉ st.seen → pyUpper o.status = "COMPLETE" → st.started = true →
      o.order_dt = none →
      resolve_5p_instrument xm o.exchange o.tradingsymbol = some i →
      (if pyUpper o.transaction_type = "BUY" then env.askPrice else env.bidPrice) = some pr →
      env.placeResp = PlaceResp.success appId →
      (handleOrder cfg xm env orders o st).2.1 =
        [Ev.place (max 1 (qtyOf o * cfg.multiplier))
           (adjustPrice (pyUpper o.transaction_type) pr) ("Z2F-" ++ o.order_id) i
           (pyUpper o.transaction_type),
         Ev.wentry o.order_id
           (LedgerEntry.mapped appId o.tradingsymbol (pyUpper o.transaction_type)
             (qtyOf o) (max 1 (qtyOf o * cfg.multiplier))),
         Ev.save] ∧
      mutationsBatched (handleOrder cfg xm env orders o st).2.1 = false) ∧
    (∀ (orders : List ZOrder) (st : LoopState), ∃ ws,
      (snapshotPass orders st).2.1 = Ev.wstart :: Ev.save :: (ws ++ [Ev.save]) ∧
      ∀ e ∈ ws, ∃ id, e = Ev.wentry id preStartEntry) ∧
    (∀ (cfg : Cfg) (xm : ResolveEnv) (env : OrderEnv) (orders : List ZOrder) (o : ZOrder)
        (st : LoopState) (t : Int),
      o.order_id ∉ st.seen → pyUpper o.status = "COMPLETE" → st.started = true →
      o.order_dt = some (some t) → t < cfg.startLocal →
      handleOrder cfg xm env orders o st =
        ({ st with orders := dictInsert o.order_id preStartEntry st.orders,
                   seen := addSeen st.seen o.order_id },
         [Ev.wentry o.order_id preStartEntry], Ctl.next)) := by
  refine ⟨?_, ?_, ?_⟩
  · intro cfg xm env orders o st i pr appId h1 h2 h3 h4 hres hq hp
    rw [handleOrder_no_ts cfg xm env orders o st h1 h2 h3 h4,
        handleAfterTs_success cfg xm env o st i pr appId hres hq hp]
    exact ⟨rfl, rfl⟩
  · intro orders st
    exact ⟨(snapEntries orders { st with started := true }).2,
           snapshotPass_events orders st, snapEntries_events orders _⟩
  · intro cfg xm env orders o st t h1 h2 h3 h4 h5
    exact handleOrder_ts_skip cfg xm env orders o st t h1 h2 h3 h4 h5

/-- A completed order carrying a parsed timestamp earlier than the start
time. -/
def oPre : ZOrder :=
  ⟨"5", "COMPLETE", some (some (-10)), "NFO", "NIFTY25N0425800PE", some 1, none, "BUY"⟩

/-- C9 witness: the success-path save applied at a concrete order, and the
unsaved timestamp-skip write applied at a concrete pre-start order. -/
theorem claim_C9_witness :
    mutationsBatched (handleOrder cfgM1 xmOK envBuyOK [oGood] oGood stReady).2.1 = false ∧
    handleOrder cfgM1 xmOK envBuyOK [oPre] oPre stReady =
      ({ stReady with orders := dictInsert oPre.order_id preStartEntry stReady.orders,
                      seen := addSeen stReady.seen oPre.order_id },
       [Ev.wentry oPre.order_id preStartEntry], Ctl.next) :=
  ⟨(claim_C9_persistence.1 cfgM1 xmOK envBuyOK [oGood] oGood stReady 111 10 (some 555)
      (by simp [stReady]) (by decide) rfl rfl (by decide) rfl rfl).2,
   claim_C9_persistence.2.2 cfgM1 xmOK envBuyOK [oPre] oPre stReady (-10)
      (by simp [stReady]) (by decide) rfl rfl (by decide)⟩

lemma dLE_refl (a : ExpDate) : dLE a a = true := by
  simp [dLE]

lemma dLE_total (a b : ExpDate) : dLE a b = true ∨ dLE b a = true := by
  simp only [dLE, decide_eq_true_eq]
  omega

lemma dLE_trans (a b c : ExpDate) (h1 : dLE a b = true) (h2 : dLE b c = true) :
    dLE a c = true := by
  simp only [dLE, decide_eq_true_eq] at h1 h2 ⊢
  omega

lemma latestDate_cons (d : ExpDate) (t : List ExpDate) :
    latestDate (d :: t) = match latestDate t with
      | none => some d
      | some m => some (if dLE m d then d else m) := rfl

lemma latestDate_spec (l : List ExpDate) (h : l ≠ []) :
    ∃ d, latestDate l = some d ∧ d ∈ l ∧ ∀ d' ∈ l, dLE d' d = true := by
  induction l with
  | nil => exact absurd rfl h
  | cons d t ih =>
      cases t with
      | nil =>
          refine ⟨d, rfl, List.mem_singleton.mpr rfl, ?_⟩
          intro d' hd'
          rw [List.mem_singleton.mp hd']
          exact dLE_refl d
      | cons x xs =>
          obtain ⟨m, hm, hmem, hub⟩ := ih (List.cons_ne_nil x xs)
          by_cases hc : dLE m d = true
          · refine ⟨d, ?_, List.mem_cons_self d _, ?_⟩
            · rw [latestDate_cons, hm]
              simp [hc]
            · intro d' hd'
              rcases List.mem_cons.mp hd' with rfl | hd2
              · exact dLE_refl d'
              · exact dLE_trans d' m d (hub d' hd2) hc
          · have hdm : dLE d m = true := (dLE_total m d).resolve_left hc
            refine ⟨m, ?_, List.mem_cons_of_mem d hmem, ?_⟩
            · rw [latestDate_cons, hm]
              simp [hc]
            · intro d' hd'
              rcases List.mem_cons.mp hd' with rfl | hd2
              · exact hdm
              · exact hub d' hd2

/-- A data client with no expiry date in the target month: only a December
2025 date is available, and the descriptor-to-instrument lookup succeeds
exactly when called with the decode-time default expiry "01Nov2025". -/
def xmNoNov : ResolveEnv :=
  ⟨fun _ _ _ => some [⟨2025, 12, 30⟩],
   fun _ _ _ exp _ _ => if exp = "01Nov2025" then some [777] else none⟩

/-- C6 counterexample: for the monthly ticker BANKNIFTY25NOV59500CE with no
available November 2025 expiry, the resolver does NOT fail with
NoMatchingExpiry — it falls through and performs the instrument lookup with
the fabricated day-01 default expiry, here successfully resolving an
instrument; the order is not skipped. -/
theorem claim_C6_counterexample :
    resolve_5p_instrument xmNoNov "NFO" "BANKNIFTY25NOV59500CE" = some 777 := by
  decide

/-- C6 amended: the resolver filters available expiry dates to those whose
month and year match the decoded descriptor and selects the latest when
several match; when none match it does not fail — it logs and falls back to
the decode-time default expiry (day 01 of the month) and still performs the
instrument lookup with whichever expiry was chosen; the order is skipped
only if that lookup then fails. -/
theorem claim_C6_monthly_expiry :
    (∀ (p : ParsedSymbol) (dates : List ExpDate) (ty tm : Nat),
      targetYM p = some (ty, tm) →
      dates.filter (fun d => decide (d.month = tm ∧ d.year = ty)) ≠ [] →
      ∃ d, d ∈ dates.filter (fun d => decide (d.month = tm ∧ d.year = ty)) ∧
        (∀ d' ∈ dates.filter (fun d => decide (d.month = tm ∧ d.year = ty)),
          dLE d' d = true) ∧
        monthlyExpiryFor p (some dates) = formatExp d) ∧
    (∀ (p : ParsedSymbol) (dates : List ExpDate) (ty tm : Nat),
      targetYM p = some (ty, tm) →
      dates.filter (fun d => decide (d.month = tm ∧ d.year = ty)) = [] →
      monthlyExpiryFor p (some dates) = expiryApiFormat p) ∧
    (∀ (xm : ResolveEnv) (exch sym : String) (pd : ParsedSymbol),
      parse_zerodha_option_symbol sym = some pd → pd.is_monthly_expiry = true →
      resolve_5p_instrument xm exch sym =
        (match xm.getOptionSymbol (get_exchange_segment_numeric_for_marketdata pd.symbol)
            pd.series pd.symbol
            (monthlyExpiryFor pd (xm.expiryResp
              (get_exchange_segment_numeric_for_marketdata pd.symbol) pd.series pd.symbol))
            pd.option_type pd.strike with
         | some (i :: _) => some i
         | _ => none)) := by
  refine ⟨?_, ?_, ?_⟩
  · intro p dates ty tm hym hne
    obtain ⟨d, hd, hmem, hub⟩ := latestDate_spec _ hne
    refine ⟨d, hmem, hub, ?_⟩
    have hdn : dates ≠ [] := by
      intro hnil
      subst hnil
      simp at hne
    have hde : dates.isEmpty = false := by
      cases dates with
      | nil => exact absurd rfl hdn
      | cons a t => rfl
    simp only [monthlyExpiryFor, hde, hym, hd, Bool.false_eq_true, if_false]
  · intro p dates ty tm hym hmt
    by_cases hde : dates.isEmpty
    · simp [monthlyExpiryFor, hde]
    · have hde' : dates.isEmpty = false := by simpa using hde
      simp only [monthlyExpiryFor, hde', hym, hmt, Bool.false_eq_true, if_false, latestDate]
  · intro xm exch sym pd hparse hmono
    simp only [resolve_5p_instrument, hparse, hmono, if_true]

/-- The decoded monthly BANKNIFTY descriptor, as produced by the decoder. -/
def pdBN : ParsedSymbol :=
  ⟨"BANKNIFTY", "01", "Nov", "2025", "CE", 59500, "OPTIDX", true⟩

/-- C6 witness: with two November 2025 expiries and one December expiry
available, the selection statement applied concretely (the latest November
date is chosen), and the lookup-equation applied at the concrete
environment. -/
theorem claim_C6_witness :
    (∃ d, d ∈ ([⟨2025, 11, 4⟩, ⟨2025, 11, 25⟩, ⟨2025, 12, 30⟩] : List ExpDate).filter
        (fun d => decide (d.month = 11 ∧ d.year = 2025)) ∧
      (∀ d' ∈ ([⟨2025, 11, 4⟩, ⟨2025, 11, 25⟩, ⟨2025, 12, 30⟩] : List ExpDate).filter
          (fun d => decide (d.month = 11 ∧ d.year = 2025)), dLE d' d = true) ∧
      monthlyExpiryFor pdBN
        (some [⟨2025, 11, 4⟩, ⟨2025, 11, 25⟩, ⟨2025, 12, 30⟩]) = formatExp d) ∧
    resolve_5p_instrument xmNoNov "NFO" "BANKNIFTY25NOV59500CE" =
      (match xmNoNov.getOptionSymbol
          (get_exchange_segment_numeric_for_marketdata pdBN.symbol) pdBN.series pdBN.symbol
          (monthlyExpiryFor pdBN (xmNoNov.expiryResp
            (get_exchange_segment_numeric_for_marketdata pdBN.symbol) pdBN.series pdBN.symbol))
          pdBN.option_type pdBN.strike with
       | some (i :: _) => some i
       | _ => none) :=
  ⟨claim_C6_monthly_expiry.1 pdBN [⟨2025, 11, 4⟩, ⟨2025, 11, 25⟩, ⟨2025, 12, 30⟩] 2025 11
      (by decide) (by decide),
   claim_C6_monthly_expiry.2.2 xmNoNov "NFO" "BANKNIFTY25NOV59500CE" pdBN (by decide) rfl⟩

/-- C10: the instrument resolver is total at its interface — it returns
`none` rather than propagating any failure: a decode failure yields `none`
for every data-client behaviour, and a failing broker lookup yields `none`
for every ticker; the two are the same observable value (the concrete bad
ticker under a working client and the concrete good ticker under a failing
client both resolve to `none`). -/
theorem claim_C10_resolver_total :
    (∀ (xm : ResolveEnv) (exch sym : String),
      parse_zerodha_option_symbol sym = none → resolve_5p_instrument xm exch sym = none) ∧
    (∀ (xm : ResolveEnv) (exch sym : String),
      (∀ a b c d e f, xm.getOptionSymbol a b c d e f = none) →
      resolve_5p_instrument xm exch sym = none) ∧
    resolve_5p_instrument xmOK "NFO" "NIFTY25X0425800PE" = none ∧
    resolve_5p_instrument xmFail "NFO" "NIFTY25N0425800PE" = none := by
  refine ⟨?_, ?_, by decide, by decide⟩
  · intro xm exch sym h
    simp [resolve_5p_instrument, h]
  · intro xm exch sym h
    rcases hp : parse_zerodha_option_symbol sym with _ | pd
    · simp [resolve_5p_instrument, hp]
    · simp only [resolve_5p_instrument, hp]
      rw [h]

/-- C10 witness: the totality statements applied at a ticker with an
unknown weekly month code and at an always-failing data client. -/
theorem claim_C10_witness :
    resolve_5p_instrument xmOK "BFO" "NIFTY25X0425800PE" = none ∧
    resolve_5p_instrument xmFail "BFO" "BANKNIFTY25NOV59500CE" = none :=
  ⟨claim_C10_resolver_total.1 xmOK "BFO" "NIFTY25X0425800PE" (by decide),
   claim_C10_resolver_total.2.1 xmFail "BFO" "BANKNIFTY25NOV59500CE" (fun _ _ _ _ _ _ => rfl)⟩
